import Mathlib

/-!
# Character-sheet editor: slot allocation and tab/cursor navigation

A shallow embedding of `Tools/app/main.go` (the Bubble Tea model of the
character editor) and the properties of its `Update` step.

Conventions of the embedding

* Go `int` is a 64-bit two's-complement integer: arithmetic results are
  passed through `wrapInt`, and `%` is the truncated remainder `Int.tmod`.
* A Go run-time panic (remainder by zero, assignment into a nil map) makes
  `Update` return `none`.
* The returned `tea.Cmd` is not modelled; `Update` returns the new model only.
* Go slices are references.  The working lists `m.equipment` / `m.weapons`
  and the document's `m.character.Equipment` / `m.character.Weapons` may
  point at the same backing array (they do after a commit).  `SliceShape`
  records the capacity of the working lists and whether the document's list
  shares their backing array, so that in-place writes are seen through both.
* The `textinput` widgets, `strconv.Atoi`, the file system and the growth
  policy of `append` are outside the repository; they are the fields of `Ext`.
* In the source the key `"l"` is listed twice (in the advance case and in a
  later load case).  A Go expression switch runs the first matching clause,
  so the load clause can never be selected and is not embedded.
-/

namespace CharSheet

/-! ## Data model (main.go, lines 16-152) -/

structure SRDEquipment where
  Name : String
  Cost : String
  Weight : String
  Category : String
  Description : String
  Equippable : Bool
  Slot : String
deriving DecidableEq, Repr

structure SRDWeapon where
  Name : String
  Cost : String
  Damage : String
  Weight : String
  Properties : String
  Description : String
deriving DecidableEq, Repr

structure SRDSpell where
  Name : String
  Level : Int
  School : String
  CastingTime : String
  Range : String
  Components : String
  Duration : String
  Description : String
  Classes : String
deriving DecidableEq, Repr

structure SRDData where
  Equipment : List SRDEquipment
  Weapons : List SRDWeapon
  Spells : List SRDSpell
deriving DecidableEq, Repr

structure Currency where
  CP : Int
  SP : Int
  EP : Int
  GP : Int
  PP : Int
deriving DecidableEq, Repr

structure Abilities where
  Strength : Int
  Dexterity : Int
  Constitution : Int
  Intelligence : Int
  Wisdom : Int
  Charisma : Int
deriving DecidableEq, Repr

structure Skill where
  Name : String
  Proficient : Bool
  Modifier : Int
deriving DecidableEq, Repr

structure Item where
  Name : String
  Description : String
  Quantity : Int
  Weight : String
  Cost : String
  Equipped : Bool
  Slot : String
deriving DecidableEq, Repr

structure Weapon where
  Name : String
  Description : String
  Damage : String
  Properties : String
  Weight : String
  Cost : String
  Equipped : Bool
  Hand : String
deriving DecidableEq, Repr

structure Spell where
  Name : String
  Description : String
  Level : Int
  School : String
  Prepared : Bool
deriving DecidableEq, Repr

/-- The allocation table: one entry per body slot, two rings, two hands. -/
structure Equipped where
  Head : Item
  Body : Item
  Hands : Item
  Feet : Item
  Ring1 : Item
  Ring2 : Item
  Neck : Item
  MainHand : Weapon
  OffHand : Weapon
deriving DecidableEq, Repr

structure Character where
  Name : String
  Race : String
  Class : String
  Level : Int
  Abilities : Abilities
  Skills : List Skill
  Equipment : List Item
  Weapons : List Weapon
  Spells : List Spell
  Background : String
  Proficiencies : List String
  Currency : Currency
  Equipped : Equipped
deriving DecidableEq, Repr

/-- Go zero value `Item{}`. -/
def Item.zero : Item := ⟨"", "", 0, "", "", false, ""⟩

/-- Go zero value `Weapon{}`. -/
def Weapon.zero : Weapon := ⟨"", "", "", "", "", "", false, ""⟩

/-- Go zero value `Equipped{}`. -/
def Equipped.zero : Equipped :=
  ⟨Item.zero, Item.zero, Item.zero, Item.zero, Item.zero, Item.zero, Item.zero,
    Weapon.zero, Weapon.zero⟩

/-- A message delivered to `Update`: a key press, identified by the text
`msg.String()` the source switches on, or any other `tea.Msg`. -/
inductive Msg where
  | key (name : String)
  | other
deriving DecidableEq, Repr

/-- Heap shape of the four item/weapon slices: capacity of the backing array
of each working list, and whether the document's list points at the same
backing array as the working list. -/
structure SliceShape where
  equipmentCap : Nat
  weaponsCap : Nat
  equipmentShared : Bool
  weaponsShared : Bool
deriving DecidableEq, Repr

/-- The application state (`type Model struct`, lines 136-152), for a text
widget type `TI` (`textinput.Model` of the external library).  `inputs` is
`none` for a nil map. -/
structure Model (TI : Type) where
  character : Character
  tabs : List String
  activeTab : Int
  inputs : Option (String → TI)
  skillList : List Skill
  equipment : List Item
  weapons : List Weapon
  spells : List Spell
  proficiencies : List String
  srdData : SRDData
  mode : String
  message : String
  equipMode : String
  selectedItem : Int
  selectedWeapon : Int
  heap : SliceShape

/-- What the program uses from outside the repository. -/
structure Ext (TI : Type) where
  /-- The zero value of `textinput.Model` (read from a missing map key). -/
  zeroInput : TI
  /-- The widget built by `textinput.New()` and the setters of `createInput`. -/
  newInput : String → String → TI
  /-- The widget after `textinput.Model.Update`. -/
  inputUpdate : TI → Msg → TI
  /-- The text of a widget, `textinput.Model.Value`. -/
  inputValue : TI → String
  /-- The library call `strconv.Atoi`; `none` when it returns an error. -/
  atoi : String → Option Int
  /-- Outcome of `saveCharacter` on the file system: `none` on success,
  otherwise the text of the error. -/
  saveCharacter : Character → Option String
  /-- Capacity chosen by `append` when it has to reallocate, from the old one. -/
  growCap : Nat → Nat

/-! ## Machine arithmetic -/

/-- Wrap-around of a 64-bit signed integer. -/
def wrapInt (x : Int) : Int := (x + 2 ^ 63) % 2 ^ 64 - 2 ^ 63

/-- Go `a % b` for `b ≠ 0` (truncated remainder); `none` is the division-by-zero
panic. -/
def goRem (a b : Int) : Option Int := if b = 0 then none else some (Int.tmod a b)

/-! ## Initialization (lines 155-254) -/

variable {TI : Type}

def createInput (x : Ext TI) (placeholder value : String) : TI :=
  x.newInput placeholder value

/-- Map assignment `inputs[k] = v`. -/
def setInput (f : String → TI) (k : String) (v : TI) : String → TI :=
  fun k' => if k' = k then v else f k'

/-- Map read `inputs[k]`; a nil map and a missing key give the zero value. -/
def getInput (x : Ext TI) (inputs : Option (String → TI)) (k : String) : TI :=
  match inputs with
  | none => x.zeroInput
  | some f => f k

def initialCharacter : Character :=
  { Name := "New Character"
    Race := "Human"
    Class := "Fighter"
    Level := 1
    Abilities := ⟨10, 10, 10, 10, 10, 10⟩
    Skills := []
    Equipment := []
    Weapons := []
    Spells := []
    Background := "Acolyte"
    Proficiencies := []
    Currency := ⟨0, 0, 0, 15, 0⟩
    Equipped := Equipped.zero }

def initialTabs : List String :=
  ["Basic Info", "Abilities", "Skills", "Equipment", "Weapons", "Spells",
    "Background", "Proficiencies", "Currency"]

def initialInputs (x : Ext TI) (char : Character) : String → TI :=
  let f0 : String → TI := fun _ => x.zeroInput
  let f := setInput f0 "name" (createInput x "Name: " char.Name)
  let f := setInput f "race" (createInput x "Race: " char.Race)
  let f := setInput f "class" (createInput x "Class: " char.Class)
  let f := setInput f "level" (createInput x "Level: " (toString char.Level))
  let f := setInput f "background" (createInput x "Background: " char.Background)
  let f := setInput f "str" (createInput x "Strength: " (toString char.Abilities.Strength))
  let f := setInput f "dex" (createInput x "Dexterity: " (toString char.Abilities.Dexterity))
  let f := setInput f "con" (createInput x "Constitution: " (toString char.Abilities.Constitution))
  let f := setInput f "int" (createInput x "Intelligence: " (toString char.Abilities.Intelligence))
  let f := setInput f "wis" (createInput x "Wisdom: " (toString char.Abilities.Wisdom))
  let f := setInput f "cha" (createInput x "Charisma: " (toString char.Abilities.Charisma))
  let f := setInput f "cp" (createInput x "Copper: " (toString char.Currency.CP))
  let f := setInput f "sp" (createInput x "Silver: " (toString char.Currency.SP))
  let f := setInput f "ep" (createInput x "Electrum: " (toString char.Currency.EP))
  let f := setInput f "gp" (createInput x "Gold: " (toString char.Currency.GP))
  setInput f "pp" (createInput x "Platinum: " (toString char.Currency.PP))

/-- The model at program start; `srd` is what `loadSRDData` read from the
reference files.  The working lists are the document's (empty, capacity 0)
slices. -/
def initialModel (x : Ext TI) (srd : SRDData) : Model TI :=
  { character := initialCharacter
    tabs := initialTabs
    activeTab := 0
    inputs := some (initialInputs x initialCharacter)
    skillList := initialCharacter.Skills
    equipment := initialCharacter.Equipment
    weapons := initialCharacter.Weapons
    spells := initialCharacter.Spells
    proficiencies := initialCharacter.Proficiencies
    srdData := srd
    mode := "view"
    message := "Welcome to D&D Character Editor!"
    equipMode := "inventory"
    selectedItem := -1
    selectedWeapon := -1
    heap := ⟨0, 0, true, true⟩ }

/-! ## Navigation (lines 408-437) -/

/-- Advance keys `"right"`, `"l"`, `"n"`, `"tab"` (lines 408-422). -/
def keyAdvance (m : Model TI) : Option (Model TI) :=
  if m.activeTab = 3 ∧ m.equipMode = "inventory" ∧ m.equipment.length > 0 then
    (goRem (wrapInt (m.selectedItem + 1)) m.equipment.length).map
      fun c => { m with selectedItem := c }
  else if m.activeTab = 4 ∧ m.weapons.length > 0 then
    (goRem (wrapInt (m.selectedWeapon + 1)) m.weapons.length).map
      fun c => { m with selectedWeapon := c }
  else
    (goRem (wrapInt (m.activeTab + 1)) m.tabs.length).map
      fun t => { m with activeTab := t, selectedItem := -1, selectedWeapon := -1 }

/-- Retreat keys `"left"`, `"h"`, `"p"`, `"shift+tab"` (lines 423-437). -/
def keyRetreat (m : Model TI) : Option (Model TI) :=
  if m.activeTab = 3 ∧ m.equipMode = "inventory" ∧ m.equipment.length > 0 then
    (goRem (wrapInt (wrapInt (m.selectedItem - 1) + m.equipment.length)) m.equipment.length).map
      fun c => { m with selectedItem := c }
  else if m.activeTab = 4 ∧ m.weapons.length > 0 then
    (goRem (wrapInt (wrapInt (m.selectedWeapon - 1) + m.weapons.length)) m.weapons.length).map
      fun c => { m with selectedWeapon := c }
  else
    (goRem (wrapInt (wrapInt (m.activeTab - 1) + m.tabs.length)) m.tabs.length).map
      fun t => { m with activeTab := t, selectedItem := -1, selectedWeapon := -1 }

/-! ## Save and add-sample (lines 444-453, 475-506) -/

/-- Key `"s"`. -/
def keySave (x : Ext TI) (m : Model TI) : Model TI :=
  if m.mode = "edit" then
    match x.saveCharacter m.character with
    | some err => { m with message := "Error saving character: " ++ err }
    | none => { m with message := "Character saved successfully!" }
  else m

def sampleItem : Item :=
  { Name := "Backpack"
    Description := "A backpack for carrying items"
    Quantity := 1
    Weight := "5 lb."
    Cost := "2 gp"
    Equipped := false
    Slot := "back" }

def sampleWeapon : Weapon :=
  { Name := "Longsword"
    Description := "A versatile martial weapon"
    Damage := "1d8 slashing"
    Properties := "Versatile (1d10)"
    Weight := "3 lb."
    Cost := "15 gp"
    Equipped := false
    Hand := "" }

/-- The statement `m.equipment = append(m.equipment, newItem)`: written in place
when the backing array has room (then also seen through a document list that
shares the array), otherwise into a fresh array. -/
def appendEquipment (x : Ext TI) (m : Model TI) (newItem : Item) : Model TI :=
  if m.equipment.length < m.heap.equipmentCap then
    { m with
      equipment := m.equipment ++ [newItem]
      character := { m.character with
        Equipment :=
          if m.heap.equipmentShared then m.character.Equipment.set m.equipment.length newItem
          else m.character.Equipment } }
  else
    { m with
      equipment := m.equipment ++ [newItem]
      heap := { m.heap with
        equipmentCap := x.growCap m.heap.equipmentCap
        equipmentShared := false } }

/-- The statement `m.weapons = append(m.weapons, newWeapon)`. -/
def appendWeapons (x : Ext TI) (m : Model TI) (newWeapon : Weapon) : Model TI :=
  if m.weapons.length < m.heap.weaponsCap then
    { m with
      weapons := m.weapons ++ [newWeapon]
      character := { m.character with
        Weapons :=
          if m.heap.weaponsShared then m.character.Weapons.set m.weapons.length newWeapon
          else m.character.Weapons } }
  else
    { m with
      weapons := m.weapons ++ [newWeapon]
      heap := { m.heap with
        weaponsCap := x.growCap m.heap.weaponsCap
        weaponsShared := false } }

/-- Key `"a"`. -/
def keyAdd (x : Ext TI) (m : Model TI) : Model TI :=
  if m.mode = "edit" then
    if m.activeTab = 3 then
      { appendEquipment x m sampleItem with message := "Added backpack to equipment" }
    else if m.activeTab = 4 then
      { appendWeapons x m sampleWeapon with message := "Added longsword to weapons" }
    else m
  else m

/-! ## Equip / unequip toggle (lines 511-608) -/

/-- Equip branch of the item toggle (lines 518-541), on the item with its flag
already set: the new table, the item, and the message as this branch leaves it. -/
def equipItem (e : Equipped) (item : Item) (message : String) :
    Equipped × Item × String :=
  if item.Slot = "head" then ({ e with Head := item }, item, message)
  else if item.Slot = "body" then ({ e with Body := item }, item, message)
  else if item.Slot = "hands" then ({ e with Hands := item }, item, message)
  else if item.Slot = "feet" then ({ e with Feet := item }, item, message)
  else if item.Slot = "ring" then
    if e.Ring1.Name = "" then ({ e with Ring1 := item }, item, message)
    else if e.Ring2.Name = "" then ({ e with Ring2 := item }, item, message)
    else (e, { item with Equipped := false }, "No ring slots available")
  else if item.Slot = "neck" then ({ e with Neck := item }, item, message)
  else (e, item, message)

/-- Unequip branch of the item toggle (lines 542-572). -/
def unequipItem (e : Equipped) (item : Item) : Equipped :=
  if item.Slot = "head" then
    if e.Head.Name = item.Name then { e with Head := Item.zero } else e
  else if item.Slot = "body" then
    if e.Body.Name = item.Name then { e with Body := Item.zero } else e
  else if item.Slot = "hands" then
    if e.Hands.Name = item.Name then { e with Hands := Item.zero } else e
  else if item.Slot = "feet" then
    if e.Feet.Name = item.Name then { e with Feet := Item.zero } else e
  else if item.Slot = "ring" then
    if e.Ring1.Name = item.Name then { e with Ring1 := Item.zero }
    else if e.Ring2.Name = item.Name then { e with Ring2 := Item.zero }
    else e
  else if item.Slot = "neck" then
    if e.Neck.Name = item.Name then { e with Neck := Item.zero } else e
  else e

/-- The rendering `map[bool]string{true: "equipped", false: "unequipped"}[b]`. -/
def equippedWord (b : Bool) : String := if b then "equipped" else "unequipped"

/-- Item toggle (lines 515-574) on entry `i` of the working list, whose value
is `item0`.  `item` is a pointer into the list, so its final value is the list
entry (and the entry of a document list sharing the array). -/
def toggleItem (m : Model TI) (i : Nat) (item0 : Item) : Model TI :=
  let item1 : Item := { item0 with Equipped := !item0.Equipped }
  let r : Equipped × Item × String :=
    if item1.Equipped then equipItem m.character.Equipped item1 m.message
    else (unequipItem m.character.Equipped item1, item1, m.message)
  let item : Item := r.2.1
  { m with
    character := { m.character with
      Equipped := r.1
      Equipment :=
        if m.heap.equipmentShared then m.character.Equipment.set i item
        else m.character.Equipment }
    equipment := m.equipment.set i item
    message := item.Name ++ " " ++ equippedWord item.Equipped }

/-- Equip branch of the weapon toggle (lines 580-594). -/
def equipWeapon (e : Equipped) (weapon : Weapon) (message : String) :
    Equipped × Weapon × String :=
  if weapon.Hand = "main" ∨ weapon.Hand = "" then
    if e.MainHand.Name = "" then
      ({ e with MainHand := weapon }, { weapon with Hand := "main" }, message)
    else if e.OffHand.Name = "" then
      ({ e with OffHand := weapon }, { weapon with Hand := "off" }, message)
    else (e, { weapon with Equipped := false }, "No hand available for weapon")
  else (e, weapon, message)

/-- Unequip branch of the weapon toggle (lines 595-603). -/
def unequipWeapon (e : Equipped) (weapon : Weapon) : Equipped × Weapon :=
  let e1 : Equipped :=
    if weapon.Hand = "main" ∧ e.MainHand.Name = weapon.Name then
      { e with MainHand := Weapon.zero }
    else if weapon.Hand = "off" ∧ e.OffHand.Name = weapon.Name then
      { e with OffHand := Weapon.zero }
    else e
  (e1, { weapon with Hand := "" })

/-- Weapon toggle (lines 576-605) on entry `i` of the working list. -/
def toggleWeapon (m : Model TI) (i : Nat) (weapon0 : Weapon) : Model TI :=
  let weapon1 : Weapon := { weapon0 with Equipped := !weapon0.Equipped }
  let r : Equipped × Weapon × String :=
    if weapon1.Equipped then equipWeapon m.character.Equipped weapon1 m.message
    else
      ((unequipWeapon m.character.Equipped weapon1).1,
        (unequipWeapon m.character.Equipped weapon1).2, m.message)
  let weapon : Weapon := r.2.1
  { m with
    character := { m.character with
      Equipped := r.1
      Weapons :=
        if m.heap.weaponsShared then m.character.Weapons.set i weapon
        else m.character.Weapons }
    weapons := m.weapons.set i weapon
    message := weapon.Name ++ " " ++ equippedWord weapon.Equipped }

/-- Key `" "` (lines 511-608). -/
def keyToggle (m : Model TI) : Model TI :=
  if m.mode = "edit" then
    if m.activeTab = 3 ∧ m.selectedItem ≥ 0 ∧ m.selectedItem < m.equipment.length then
      match m.equipment[m.selectedItem.toNat]? with
      | some item => toggleItem m m.selectedItem.toNat item
      | none => m
    else if m.activeTab = 4 ∧ m.selectedWeapon ≥ 0 ∧ m.selectedWeapon < m.weapons.length then
      match m.weapons[m.selectedWeapon.toNat]? with
      | some weapon => toggleWeapon m m.selectedWeapon.toNat weapon
      | none => m
    else m
  else m

/-! ## Sub-view keys (lines 609-620) -/

def keyInventory (m : Model TI) : Model TI :=
  if m.activeTab = 3 then { m with equipMode := "inventory", message := "Viewing inventory" }
  else m

def keyEquipped (m : Model TI) : Model TI :=
  if m.activeTab = 3 then
    { m with equipMode := "equipped", message := "Viewing equipped items" }
  else m

/-! ## Text inputs and commit (lines 653-762) -/

/-- One pass `m.inputs[key], cmd = m.inputs[key].Update(msg)` over `keys`. -/
def updateKeys (x : Ext TI) (f : String → TI) (keys : List String) (msg : Msg) :
    String → TI :=
  keys.foldl (fun g k => setInput g k (x.inputUpdate (g k) msg)) f

/-- The keys whose widgets the active tab routes messages to. -/
def tabKeys (activeTab : Int) : List String :=
  (if activeTab = 0 then ["name", "race", "class", "level"] else [])
    ++ (if activeTab = 1 then ["str", "dex", "con", "int", "wis", "cha"] else [])
    ++ (if activeTab = 6 then ["background"] else [])
    ++ (if activeTab = 8 then ["cp", "sp", "ep", "gp", "pp"] else [])

/-- The method `updateInputs` followed by `return m, cmd`.  Writing into a nil
map panics. -/
def updateInputs (x : Ext TI) (m : Model TI) (msg : Msg) : Option (Model TI) :=
  match tabKeys m.activeTab, m.inputs with
  | [], _ => some m
  | _ :: _, none => none
  | k :: ks, some f => some { m with inputs := some (updateKeys x f (k :: ks) msg) }

/-- The statement `if val, err := strconv.Atoi(s); err == nil { field = val }`. -/
def atoiOr (x : Ext TI) (s : String) (old : Int) : Int :=
  match x.atoi s with
  | some v => v
  | none => old

/-- The method `updateCharacterData` (lines 696-762): the commit. -/
def updateCharacterData (x : Ext TI) (m : Model TI) : Model TI :=
  let v : String → String := fun k => x.inputValue (getInput x m.inputs k)
  let c : Character := m.character
  let c : Character :=
    if m.activeTab = 0 then
      { c with
        Name := v "name"
        Race := v "race"
        Class := v "class"
        Level := atoiOr x (v "level") c.Level }
    else c
  let c : Character :=
    if m.activeTab = 1 then
      { c with
        Abilities :=
          { Strength := atoiOr x (v "str") c.Abilities.Strength
            Dexterity := atoiOr x (v "dex") c.Abilities.Dexterity
            Constitution := atoiOr x (v "con") c.Abilities.Constitution
            Intelligence := atoiOr x (v "int") c.Abilities.Intelligence
            Wisdom := atoiOr x (v "wis") c.Abilities.Wisdom
            Charisma := atoiOr x (v "cha") c.Abilities.Charisma } }
    else c
  let c : Character :=
    if m.activeTab = 6 then { c with Background := v "background" } else c
  let c : Character :=
    if m.activeTab = 8 then
      { c with
        Currency :=
          { CP := atoiOr x (v "cp") c.Currency.CP
            SP := atoiOr x (v "sp") c.Currency.SP
            EP := atoiOr x (v "ep") c.Currency.EP
            GP := atoiOr x (v "gp") c.Currency.GP
            PP := atoiOr x (v "pp") c.Currency.PP } }
    else c
  { m with
    character := { c with
      Skills := m.skillList
      Equipment := m.equipment
      Weapons := m.weapons
      Spells := m.spells
      Proficiencies := m.proficiencies }
    message := "Character data updated!"
    heap := { m.heap with equipmentShared := true, weaponsShared := true } }

/-! ## The step function (lines 402-630) -/

/-- The method `Model.Update`: the model it returns, or `none` when it panics. -/
def Update (x : Ext TI) (m : Model TI) (msg : Msg) : Option (Model TI) :=
  match msg with
  | Msg.key s =>
    if s = "ctrl+c" ∨ s = "q" then some m
    else if s = "right" ∨ s = "l" ∨ s = "n" ∨ s = "tab" then keyAdvance m
    else if s = "left" ∨ s = "h" ∨ s = "p" ∨ s = "shift+tab" then keyRetreat m
    else if s = "e" then some { m with mode := "edit" }
    else if s = "v" then some { m with mode := "view" }
    else if s = "s" then some (keySave x m)
    else if s = "a" then some (keyAdd x m)
    else if s = "enter" then
      if m.mode = "edit" then some (updateCharacterData x m) else updateInputs x m msg
    else if s = " " then some (keyToggle m)
    else if s = "i" then some (keyInventory m)
    else if s = "w" then some (keyEquipped m)
    else updateInputs x m msg
  | Msg.other => updateInputs x m msg

/-- Run a sequence of messages; `none` as soon as one step panics. -/
def run (x : Ext TI) (m : Model TI) : List Msg → Option (Model TI)
  | [] => some m
  | msg :: rest => (Update x m msg).bind fun m1 => run x m1 rest

/-- States reachable from the initial model by messages; every step may see a
different outside world. -/
inductive Reachable : Model TI → Prop where
  | init (x : Ext TI) (srd : SRDData) : Reachable (initialModel x srd)
  | step (x : Ext TI) (msg : Msg) {m m1 : Model TI} :
      Reachable m → Update x m msg = some m1 → Reachable m1

/-! ## Keys and step relations used in the statements -/

def advanceKeys : List String := ["right", "l", "n", "tab"]

def retreatKeys : List String := ["left", "h", "p", "shift+tab"]

/-- What every step other than navigation, add and toggle leaves alone. -/
def Frame (m m1 : Model TI) : Prop :=
  m1.character.Equipped = m.character.Equipped ∧ m1.equipment = m.equipment ∧
  m1.weapons = m.weapons ∧ m1.activeTab = m.activeTab ∧
  m1.selectedItem = m.selectedItem ∧ m1.selectedWeapon = m.selectedWeapon ∧
  m1.tabs = m.tabs ∧ m1.inputs.isSome = m.inputs.isSome

/-- A navigation step: the table, lists, tabs and inputs stay, and either the
tab stays (an owning tab whose cursor moved) or both cursors are reset. -/
def NavStep (m m1 : Model TI) : Prop :=
  m1.character.Equipped = m.character.Equipped ∧ m1.equipment = m.equipment ∧
  m1.weapons = m.weapons ∧ m1.tabs = m.tabs ∧ m1.inputs = m.inputs ∧
  ((m.activeTab = 3 ∧ m1.activeTab = 3 ∧ m1.selectedWeapon = m.selectedWeapon) ∨
   (m.activeTab = 4 ∧ m1.activeTab = 4 ∧ m1.selectedItem = m.selectedItem) ∨
   (m1.selectedItem = -1 ∧ m1.selectedWeapon = -1))

/-- What add and toggle leave alone. -/
def CursorFrame (m m1 : Model TI) : Prop :=
  m1.activeTab = m.activeTab ∧ m1.selectedItem = m.selectedItem ∧
  m1.selectedWeapon = m.selectedWeapon ∧ m1.tabs = m.tabs ∧ m1.inputs = m.inputs

/-- Cursor invariant: a cursor is -1 unless its owning tab is active. -/
def CursorInv (m : Model TI) : Prop :=
  (m.activeTab ≠ 3 → m.selectedItem = -1) ∧ (m.activeTab ≠ 4 → m.selectedWeapon = -1)

/-- Enough for no step to panic: there is a tab list to wrap around and the
inputs map is not nil. -/
def PanicFree (m : Model TI) : Prop := m.tabs ≠ [] ∧ m.inputs.isSome = true

/-- Every entry of the table other than the zero value (in particular every
entry with a non-empty name) has a same-named entry with its flag set in the
given item list, respectively weapon list. -/
def Backed (e : Equipped) (items : List Item) (weapons : List Weapon) : Prop :=
  (∀ s, s ∈ [e.Head, e.Body, e.Hands, e.Feet, e.Neck, e.Ring1, e.Ring2] → s ≠ Item.zero →
    ∃ it, it ∈ items ∧ it.Name = s.Name ∧ it.Equipped = true) ∧
  (∀ h, h ∈ [e.MainHand, e.OffHand] → h ≠ Weapon.zero →
    ∃ w, w ∈ weapons ∧ w.Name = h.Name ∧ w.Equipped = true)

instance Backed.decidable (e : Equipped) (items : List Item) (weapons : List Weapon) :
    Decidable (Backed e items weapons) := by
  unfold Backed; infer_instance

/-- A hand of the table is free, or holds a sample weapon for which the list has
a flagged entry assigned to that hand. -/
def HandHeld (weapons : List Weapon) (held : Weapon) (hand : String) : Prop :=
  held = Weapon.zero ∨
    (held.Name = "Longsword" ∧ ∃ w, w ∈ weapons ∧ w.Equipped = true ∧ w.Hand = hand)

/-- What holds of the table and the working lists in every state reached from
the initial model: only sample entries exist, no item slot is ever filled, and
each hand is backed by a flagged entry of the weapon list. -/
def SampleInv (e : Equipped) (items : List Item) (weapons : List Weapon) : Prop :=
  (∀ it, it ∈ items → it.Slot = "back") ∧
  e.Head = Item.zero ∧ e.Body = Item.zero ∧ e.Hands = Item.zero ∧ e.Feet = Item.zero ∧
  e.Neck = Item.zero ∧ e.Ring1 = Item.zero ∧ e.Ring2 = Item.zero ∧
  (∀ w, w ∈ weapons → w.Name = "Longsword") ∧
  HandHeld weapons e.MainHand "main" ∧ HandHeld weapons e.OffHand "off"

/-- The model after entering edit mode and walking to tab `t` from program start. -/
def walkedModel (x : Ext TI) (srd : SRDData) (t : Int) : Model TI :=
  { initialModel x srd with mode := "edit", activeTab := t }

/-- The model with one sample backpack on the equipment tab, selected, as the
scenario of add, advance and toggles leaves it: `flag` is the backpack's flag
and `message` the status line. -/
def backpackModel (x : Ext TI) (srd : SRDData) (flag : Bool) (message : String) : Model TI :=
  { walkedModel x srd 3 with
    equipment := [{ sampleItem with Equipped := flag }]
    message := message
    selectedItem := 0
    heap := ⟨x.growCap 0, 0, false, true⟩ }

/-- A cursor `c` over a list of length `n` is -1 (no selection) or an index. -/
def CursorOk (c : Int) (n : Nat) : Prop := c = -1 ∨ (0 ≤ c ∧ c < n)

/-- Both cursors are in range. -/
def CursorsOk (m : Model TI) : Prop :=
  CursorOk m.selectedItem m.equipment.length ∧ CursorOk m.selectedWeapon m.weapons.length

/-- States reachable from `m0` by messages; every step may see a different
outside world. -/
inductive ReachableFrom (m0 : Model TI) : Model TI → Prop where
  | start : ReachableFrom m0 m0
  | step (x : Ext TI) (msg : Msg) {m m1 : Model TI} :
      ReachableFrom m0 m → Update x m msg = some m1 → ReachableFrom m0 m1

/-- A table field holding an item: if its name is non-empty, the item list has
an entry with that name, its flag set, and the given slot category. -/
def ItemBacked (items : List Item) (field : Item) (slot : String) : Prop :=
  field.Name ≠ "" →
    ∃ it, it ∈ items ∧ it.Name = field.Name ∧ it.Equipped = true ∧ it.Slot = slot

/-- A table field holding a weapon: if its name is non-empty, the weapon list has
an entry with that name, its flag set, and the given hand assignment. -/
def WeaponBacked (weapons : List Weapon) (field : Weapon) (hand : String) : Prop :=
  field.Name ≠ "" →
    ∃ w, w ∈ weapons ∧ w.Name = field.Name ∧ w.Equipped = true ∧ w.Hand = hand

/-- Every field of the table with a non-empty name is backed by a flagged entry
of the matching category or hand. -/
def TableFlagged (e : Equipped) (items : List Item) (weapons : List Weapon) : Prop :=
  ItemBacked items e.Head "head" ∧ ItemBacked items e.Body "body" ∧
  ItemBacked items e.Hands "hands" ∧ ItemBacked items e.Feet "feet" ∧
  ItemBacked items e.Neck "neck" ∧ ItemBacked items e.Ring1 "ring" ∧
  ItemBacked items e.Ring2 "ring" ∧ WeaponBacked weapons e.MainHand "main" ∧
  WeaponBacked weapons e.OffHand "off"

/-- Entry `i` of `l` exists and satisfies `P`. -/
def HasAt {α : Type} (l : List α) (i : Nat) (P : α → Prop) : Prop :=
  ∃ a, l[i]? = some a ∧ P a

/-- An item entry with the given name and slot category whose flag is set. -/
def IsWorn (name slot : String) (it : Item) : Prop :=
  it.Name = name ∧ it.Equipped = true ∧ it.Slot = slot

/-- A weapon entry with the given name and hand whose flag is set. -/
def IsHeld (name hand : String) (w : Weapon) : Prop :=
  w.Name = name ∧ w.Equipped = true ∧ w.Hand = hand

/-- Index form of `ItemBacked`. -/
def FixedInv (items : List Item) (field : Item) (slot : String) : Prop :=
  field.Name ≠ "" → ∃ i, HasAt items i (IsWorn field.Name slot)

/-- The two ring fields: each named one has a flagged ring entry of its name, and
when both carry the same name there are two such entries. -/
def RingInv (items : List Item) (r1 r2 : Item) : Prop :=
  (r1.Name ≠ "" → ∃ i, HasAt items i (IsWorn r1.Name "ring")) ∧
  (r2.Name ≠ "" → ∃ i, HasAt items i (IsWorn r2.Name "ring")) ∧
  (r1.Name ≠ "" → r1.Name = r2.Name →
    ∃ i j, i ≠ j ∧ HasAt items i (IsWorn r1.Name "ring") ∧
      HasAt items j (IsWorn r1.Name "ring"))

/-- Index form of `WeaponBacked`. -/
def HandInv (weapons : List Weapon) (field : Weapon) (hand : String) : Prop :=
  field.Name ≠ "" → ∃ i, HasAt weapons i (IsHeld field.Name hand)

/-- The invariant behind `TableFlagged`. -/
def FullInv (e : Equipped) (items : List Item) (weapons : List Weapon) : Prop :=
  FixedInv items e.Head "head" ∧ FixedInv items e.Body "body" ∧
  FixedInv items e.Hands "hands" ∧ FixedInv items e.Feet "feet" ∧
  FixedInv items e.Neck "neck" ∧ RingInv items e.Ring1 e.Ring2 ∧
  HandInv weapons e.MainHand "main" ∧ HandInv weapons e.OffHand "off"

/-! ## Concrete models used to exercise the theorems -/

def demoExt : Ext Unit :=
  { zeroInput := ()
    newInput := fun _ _ => ()
    inputUpdate := fun _ _ => ()
    inputValue := fun _ => ""
    atoi := fun _ => none
    saveCharacter := fun _ => none
    growCap := fun c => 2 * c + 1 }

def demoSRD : SRDData := ⟨[], [], []⟩

def mkItem (name slot : String) (equipped : Bool) : Item :=
  { Name := name, Description := "", Quantity := 1, Weight := "", Cost := "",
    Equipped := equipped, Slot := slot }

def mkWeapon (name hand : String) (equipped : Bool) : Weapon :=
  { Name := name, Description := "", Damage := "1d6", Properties := "", Weight := "",
    Cost := "", Equipped := equipped, Hand := hand }

/-- Edit mode, equipment tab, inventory sub-view, nothing owned or equipped. -/
def demoModel : Model Unit :=
  { initialModel demoExt demoSRD with mode := "edit", activeTab := 3 }

/-- A cap is worn on the head; the cursor is on an unequipped helmet. -/
def headModel : Model Unit :=
  { demoModel with
    equipment := [mkItem "Cap" "head" true, mkItem "Helmet" "head" false]
    character := { demoModel.character with
      Equipped := { Equipped.zero with Head := mkItem "Cap" "head" true } }
    selectedItem := 1 }

/-- Two unequipped rings, the first of them without a name; cursor on the first. -/
def unnamedRingModel : Model Unit :=
  { demoModel with
    equipment := [mkItem "" "ring" false, mkItem "Signet" "ring" false]
    selectedItem := 0 }

/-- Two unequipped named rings; cursor on the first. -/
def ringPairModel : Model Unit :=
  { demoModel with
    equipment := [mkItem "Band" "ring" false, mkItem "Signet" "ring" false]
    selectedItem := 0 }

/-- Both ring slots taken; the cursor is on a third, unequipped ring. -/
def fullRingModel : Model Unit :=
  { demoModel with
    equipment :=
      [mkItem "Band" "ring" true, mkItem "Signet" "ring" true, mkItem "Opal" "ring" false]
    character := { demoModel.character with
      Equipped := { Equipped.zero with
        Ring1 := mkItem "Band" "ring" true
        Ring2 := mkItem "Signet" "ring" true } }
    selectedItem := 2 }

/-- The cursor is on the cap that is worn on the head. -/
def wornCapModel : Model Unit := { headModel with selectedItem := 0 }

/-- Weapons tab, three unequipped weapons, both hands free; cursor on the first. -/
def armoryModel : Model Unit :=
  { demoModel with
    activeTab := 4
    weapons := [mkWeapon "Sword" "" false, mkWeapon "Dagger" "" false,
      mkWeapon "Axe" "" false]
    selectedWeapon := 0 }

/-- Weapons tab, a sword held in the main hand; cursor on it. -/
def swordInHandModel : Model Unit :=
  { demoModel with
    activeTab := 4
    weapons := [mkWeapon "Sword" "main" true]
    character := { demoModel.character with
      Equipped := { Equipped.zero with MainHand := mkWeapon "Sword" "" true } }
    selectedWeapon := 0 }

/-- Key presses as messages. -/
def keys (names : List String) : List Msg := names.map Msg.key

/-- From program start: enter edit mode, walk to the weapons tab, add three
sample weapons and toggle each of them in turn. -/
def threeSwordsKeys : List Msg :=
  keys ["e", "right", "right", "right", "right", "a", "a", "a",
    "right", " ", "right", " ", "right", " "]

/-- From program start: enter edit mode, walk to the weapons tab, add one sample
weapon, select it and equip it; no commit. -/
def equipWithoutCommitKeys : List Msg :=
  keys ["e", "right", "right", "right", "right", "a", "right", " "]

/-- Equipment tab, inventory sub-view, three items, no selection. -/
def threeItemModel : Model Unit :=
  { demoModel with
    equipment := [mkItem "Rope" "none" false, mkItem "Torch" "none" false,
      mkItem "Helmet" "head" false] }

/-- From program start: enter edit mode, walk to the equipment tab, add the
sample item and select it. -/
def cursorWalkKeys : List Msg := keys ["e", "right", "right", "right", "a", "right"]

/-- Two unequipped rings of the same name; cursor on the first. -/
def twinRingModel : Model Unit :=
  { demoModel with
    equipment := [mkItem "Band" "ring" false, mkItem "Band" "ring" false]
    selectedItem := 0 }

end CharSheet

/-! ## Theorems

### Auxiliary facts about lists and the toggle key -/

namespace CharSheet

variable {TI : Type}

theorem Update_space (x : Ext TI) (m : Model TI) :
    Update x m (Msg.key " ") = some (keyToggle m) := by
  simp [Update]

theorem lt_length_of_getElem? {α : Type} {l : List α} {i : Nat} {a : α}
    (h : l[i]? = some a) : i < l.length := by
  rcases Nat.lt_or_ge i l.length with h1 | h1
  · exact h1
  · rw [List.getElem?_eq_none h1] at h; cases h

theorem keyToggle_item (m : Model TI) (i : Nat) (item : Item)
    (hmode : m.mode = "edit") (htab : m.activeTab = 3)
    (hcur : m.selectedItem = (i : Int)) (hitem : m.equipment[i]? = some item) :
    keyToggle m = toggleItem m i item := by
  have hlt : i < m.equipment.length := lt_length_of_getElem? hitem
  unfold keyToggle
  simp [hmode, htab, hcur, hitem, hlt]

theorem keyToggle_weapon (m : Model TI) (i : Nat) (weapon : Weapon)
    (hmode : m.mode = "edit") (htab : m.activeTab = 4)
    (hcur : m.selectedWeapon = (i : Int)) (hw : m.weapons[i]? = some weapon) :
    keyToggle m = toggleWeapon m i weapon := by
  have hlt : i < m.weapons.length := lt_length_of_getElem? hw
  unfold keyToggle
  simp [hmode, htab, hcur, hw, hlt]

theorem getElem?_set_self_of_some {α : Type} (l : List α) (i : Nat) (a b : α)
    (h : l[i]? = some a) : (l.set i b)[i]? = some b := by
  simp [List.getElem?_set, lt_length_of_getElem? h]

theorem getElem?_set_other {α : Type} (l : List α) (i j : Nat) (b : α)
    (h : j ≠ i) : (l.set i b)[j]? = l[j]? := by
  simp [List.getElem?_set, Ne.symm h]

theorem set_same_of_getElem? {α : Type} (l : List α) (i : Nat) (a : α)
    (h : l[i]? = some a) : l.set i a = l := by
  induction l generalizing i with
  | nil => rfl
  | cons b t ih =>
    cases i with
    | zero => simp at h; simp [h]
    | succ k => simp at h; simp [ih k h]

/-! ### Equipping and unequipping items -/

/-- C1: in edit mode on the equipment tab, toggling an unequipped item of slot
category head, body, hands, feet or neck always succeeds, whatever the slot
held: the selected entry gets its flag set, the field of the table for that
category becomes a copy of the flagged item, the other eight fields of the table
keep their values, and all other inventory entries (the previous occupant's
included) are untouched. -/
theorem equip_fixed_slot_succeeds (x : Ext TI) (m : Model TI) (i : Nat) (item : Item)
    (hmode : m.mode = "edit") (htab : m.activeTab = 3)
    (hcur : m.selectedItem = (i : Int)) (hitem : m.equipment[i]? = some item)
    (hflag : item.Equipped = false)
    (hslot : item.Slot = "head" ∨ item.Slot = "body" ∨ item.Slot = "hands" ∨
      item.Slot = "feet" ∨ item.Slot = "neck") :
    ∃ m1, Update x m (Msg.key " ") = some m1 ∧
      m1.equipment[i]? = some { item with Equipped := true } ∧
      m1.equipment.length = m.equipment.length ∧
      (∀ j, j ≠ i → m1.equipment[j]? = m.equipment[j]?) ∧
      (item.Slot = "head" → m1.character.Equipped =
        { m.character.Equipped with Head := { item with Equipped := true } }) ∧
      (item.Slot = "body" → m1.character.Equipped =
        { m.character.Equipped with Body := { item with Equipped := true } }) ∧
      (item.Slot = "hands" → m1.character.Equipped =
        { m.character.Equipped with Hands := { item with Equipped := true } }) ∧
      (item.Slot = "feet" → m1.character.Equipped =
        { m.character.Equipped with Feet := { item with Equipped := true } }) ∧
      (item.Slot = "neck" → m1.character.Equipped =
        { m.character.Equipped with Neck := { item with Equipped := true } }) := by
  refine ⟨toggleItem m i item, ?_, ?_, ?_, ?_, ?_⟩
  · rw [Update_space, keyToggle_item m i item hmode htab hcur hitem]
  · have : (toggleItem m i item).equipment = m.equipment.set i { item with Equipped := true } := by
      rcases hslot with h | h | h | h | h <;> simp [toggleItem, equipItem, hflag, h]
    rw [this]; exact getElem?_set_self_of_some _ _ _ _ hitem
  · simp [toggleItem]
  · intro j hj
    simp only [toggleItem]
    exact getElem?_set_other _ _ _ _ hj
  · rcases hslot with h | h | h | h | h <;> simp [toggleItem, equipItem, hflag, h]

theorem equip_fixed_slot_succeeds_witness :
    ∃ m1, Update demoExt headModel (Msg.key " ") = some m1 ∧
      m1.character.Equipped.Head = mkItem "Helmet" "head" true ∧
      m1.equipment[0]? = some (mkItem "Cap" "head" true) := by
  obtain ⟨m1, h1, _, _, hother, hhead, _⟩ :=
    equip_fixed_slot_succeeds demoExt headModel 1 (mkItem "Helmet" "head" false)
      rfl rfl rfl rfl rfl (Or.inl rfl)
  exact ⟨m1, h1, by rw [hhead rfl]; rfl, by rw [hother 0 (by decide)]; rfl⟩

/-- C2 as stated fails: with both ring slots empty and two different unequipped
ring entries of which the first has the empty name, toggling the first and then
the second leaves the second ring in Ring1 and nothing in Ring2.  The same final
model is reached by the key presses space, right, space. -/
theorem ring_pair_unnamed_first_counterexample :
    unnamedRingModel.mode = "edit" ∧ unnamedRingModel.activeTab = 3 ∧
    unnamedRingModel.selectedItem = 0 ∧
    unnamedRingModel.character.Equipped.Ring1 = Item.zero ∧
    unnamedRingModel.character.Equipped.Ring2 = Item.zero ∧
    unnamedRingModel.equipment[0]? = some (mkItem "" "ring" false) ∧
    unnamedRingModel.equipment[1]? = some (mkItem "Signet" "ring" false) ∧
    ∃ m1 m2, Update demoExt unnamedRingModel (Msg.key " ") = some m1 ∧
      Update demoExt { m1 with selectedItem := 1 } (Msg.key " ") = some m2 ∧
      run demoExt unnamedRingModel (keys [" ", "right", " "]) = some m2 ∧
      m2.character.Equipped.Ring1 = mkItem "Signet" "ring" true ∧
      m2.character.Equipped.Ring1 ≠ mkItem "" "ring" true ∧
      m2.character.Equipped.Ring2 = Item.zero ∧
      m2.character.Equipped.Ring2 ≠ mkItem "Signet" "ring" true :=
  ⟨rfl, rfl, rfl, rfl, rfl, rfl, rfl, _, _, rfl, rfl, rfl, rfl, by decide, rfl, by decide⟩

/-- C2 (amended): in edit mode on the equipment tab with Ring1 and Ring2 both
empty, for two different unequipped ring entries of which the first has a
non-empty name, toggling the first and then (cursor moved) the second puts a
copy of the first in Ring1 and a copy of the second in Ring2, and both entries
are flagged. -/
theorem ring_pair_fills_ring1_then_ring2 (x : Ext TI) (m : Model TI) (i j : Nat)
    (a b : Item) (hmode : m.mode = "edit") (htab : m.activeTab = 3)
    (hcur : m.selectedItem = (i : Int))
    (hr1 : m.character.Equipped.Ring1.Name = "")
    (hr2 : m.character.Equipped.Ring2.Name = "")
    (hij : i ≠ j) (ha : m.equipment[i]? = some a) (hb : m.equipment[j]? = some b)
    (hfa : a.Equipped = false) (hfb : b.Equipped = false)
    (hsa : a.Slot = "ring") (hsb : b.Slot = "ring") (hna : a.Name ≠ "") :
    ∃ m1, Update x m (Msg.key " ") = some m1 ∧
      ∃ m2, Update x { m1 with selectedItem := (j : Int) } (Msg.key " ") = some m2 ∧
        m2.character.Equipped.Ring1 = { a with Equipped := true } ∧
        m2.character.Equipped.Ring2 = { b with Equipped := true } ∧
        m2.equipment[i]? = some { a with Equipped := true } ∧
        m2.equipment[j]? = some { b with Equipped := true } := by
  have e1 : (toggleItem m i a).equipment = m.equipment.set i { a with Equipped := true } := by
    simp [toggleItem, equipItem, hfa, hsa, hr1]
  have t1 : (toggleItem m i a).character.Equipped =
      { m.character.Equipped with Ring1 := { a with Equipped := true } } := by
    simp [toggleItem, equipItem, hfa, hsa, hr1]
  have hb1 : ({ toggleItem m i a with selectedItem := (j : Int) } : Model TI).equipment[j]?
      = some b := by
    show (toggleItem m i a).equipment[j]? = some b
    rw [e1, getElem?_set_other _ _ _ _ (Ne.symm hij)]; exact hb
  refine ⟨toggleItem m i a, ?_, toggleItem { toggleItem m i a with selectedItem := (j : Int) } j b,
    ?_, ?_, ?_, ?_, ?_⟩
  · rw [Update_space, keyToggle_item m i a hmode htab hcur ha]
  · rw [Update_space, keyToggle_item _ j b _ _ rfl hb1]
    · simpa [toggleItem] using hmode
    · simpa [toggleItem] using htab
  · simp [toggleItem, equipItem, hfa, hfb, hsa, hsb, hr1, hr2, hna]
  · simp [toggleItem, equipItem, hfa, hfb, hsa, hsb, hr1, hr2, hna]
  · have : (toggleItem { toggleItem m i a with selectedItem := (j : Int) } j b).equipment
        = ((m.equipment.set i { a with Equipped := true }).set j { b with Equipped := true }) := by
      simp [toggleItem, equipItem, hfa, hfb, hsa, hsb, hr1, hr2, hna]
    rw [this, getElem?_set_other _ _ _ _ hij]
    exact getElem?_set_self_of_some _ _ _ _ ha
  · have : (toggleItem { toggleItem m i a with selectedItem := (j : Int) } j b).equipment
        = ((m.equipment.set i { a with Equipped := true }).set j { b with Equipped := true }) := by
      simp [toggleItem, equipItem, hfa, hfb, hsa, hsb, hr1, hr2, hna]
    rw [this]
    apply getElem?_set_self_of_some _ _ b
    rw [getElem?_set_other _ _ _ _ (Ne.symm hij)]; exact hb

theorem ring_pair_fills_ring1_then_ring2_witness :
    ∃ m1, Update demoExt ringPairModel (Msg.key " ") = some m1 ∧
      ∃ m2, Update demoExt { m1 with selectedItem := 1 } (Msg.key " ") = some m2 ∧
        m2.character.Equipped.Ring1 = mkItem "Band" "ring" true ∧
        m2.character.Equipped.Ring2 = mkItem "Signet" "ring" true := by
  obtain ⟨m1, h1, m2, h2, r1, r2, _, _⟩ :=
    ring_pair_fills_ring1_then_ring2 demoExt ringPairModel 0 1
      (mkItem "Band" "ring" false) (mkItem "Signet" "ring" false)
      rfl rfl rfl rfl rfl (by decide) rfl rfl rfl rfl rfl rfl (by decide)
  exact ⟨m1, h1, m2, h2, r1, r2⟩

/-- C3: in edit mode on the equipment tab with both ring slots holding items of
non-empty name, toggling an unequipped ring item is rejected: the whole table
(Ring1, Ring2 and every other field) and the whole inventory are unchanged, and
the selected entry's flag is false afterwards. -/
theorem ring_equip_rejected_when_full (x : Ext TI) (m : Model TI) (i : Nat) (item : Item)
    (hmode : m.mode = "edit") (htab : m.activeTab = 3)
    (hcur : m.selectedItem = (i : Int)) (hitem : m.equipment[i]? = some item)
    (hflag : item.Equipped = false) (hslot : item.Slot = "ring")
    (hr1 : m.character.Equipped.Ring1.Name ≠ "")
    (hr2 : m.character.Equipped.Ring2.Name ≠ "") :
    ∃ m1, Update x m (Msg.key " ") = some m1 ∧
      m1.character.Equipped = m.character.Equipped ∧
      m1.equipment = m.equipment ∧
      (∃ it, m1.equipment[i]? = some it ∧ it.Equipped = false) := by
  have e1 : (toggleItem m i item).equipment = m.equipment := by
    obtain ⟨n, d, q, w, c, e, s⟩ := item
    simp only at hflag hslot
    subst hflag hslot
    simp [toggleItem, equipItem, hr1, hr2]
    exact set_same_of_getElem? _ _ _ hitem
  refine ⟨toggleItem m i item, ?_, ?_, e1, item, ?_, hflag⟩
  · rw [Update_space, keyToggle_item m i item hmode htab hcur hitem]
  · simp [toggleItem, equipItem, hflag, hslot, hr1, hr2]
  · rw [e1]; exact hitem

theorem ring_equip_rejected_when_full_witness :
    ∃ m1, Update demoExt fullRingModel (Msg.key " ") = some m1 ∧
      m1.character.Equipped.Ring1 = mkItem "Band" "ring" true ∧
      m1.character.Equipped.Ring2 = mkItem "Signet" "ring" true ∧
      m1.equipment[2]? = some (mkItem "Opal" "ring" false) := by
  obtain ⟨m1, h1, ht, he, _⟩ :=
    ring_equip_rejected_when_full demoExt fullRingModel 2 (mkItem "Opal" "ring" false)
      rfl rfl rfl rfl rfl rfl (by decide) (by decide)
  exact ⟨m1, h1, by rw [ht]; rfl, by rw [ht]; rfl, by rw [he]; rfl⟩

/-- C4 (the code at the failing inputs): a rejected equip does not leave the
rejection as the status message.  With both ring slots taken, toggling a third
ring leaves the table alone and the message reads "Opal unequipped"; from program
start, adding three sample weapons and toggling each leaves the third one
unequipped with both hands taken and the message "Longsword unequipped". -/
theorem rejection_message_overwritten :
    (∃ m1, Update demoExt fullRingModel (Msg.key " ") = some m1 ∧
      m1.character.Equipped = fullRingModel.character.Equipped ∧
      m1.equipment[2]? = some (mkItem "Opal" "ring" false) ∧
      m1.message = "Opal unequipped" ∧
      m1.message ≠ "No ring slots available") ∧
    (∃ m3, run demoExt (initialModel demoExt demoSRD) threeSwordsKeys = some m3 ∧
      m3.character.Equipped.MainHand.Name = "Longsword" ∧
      m3.character.Equipped.OffHand.Name = "Longsword" ∧
      m3.selectedWeapon = 2 ∧
      m3.weapons[2]? = some sampleWeapon ∧
      m3.message = "Longsword unequipped" ∧
      m3.message ≠ "No hand available for weapon") :=
  ⟨⟨_, rfl, rfl, rfl, rfl, by decide⟩, ⟨_, rfl, rfl, rfl, rfl, rfl, rfl, by decide⟩⟩

/-- C5: in edit mode on the equipment tab, toggling an item whose flag is set
clears the flag of that entry only, and clears at most one field of the table:
the field of the item's category (for a ring: Ring1 if its occupant has the
item's name, otherwise Ring2 if that one has it), and only when that occupant
has the item's name; otherwise the table is unchanged. -/
theorem unequip_item_clears_matching_slot_only (x : Ext TI) (m : Model TI) (i : Nat)
    (item : Item) (hmode : m.mode = "edit") (htab : m.activeTab = 3)
    (hcur : m.selectedItem = (i : Int)) (hitem : m.equipment[i]? = some item)
    (hflag : item.Equipped = true) :
    ∃ m1, Update x m (Msg.key " ") = some m1 ∧
      m1.equipment[i]? = some { item with Equipped := false } ∧
      (∀ j, j ≠ i → m1.equipment[j]? = m.equipment[j]?) ∧
      (item.Slot = "head" → m1.character.Equipped =
        if m.character.Equipped.Head.Name = item.Name
        then { m.character.Equipped with Head := Item.zero } else m.character.Equipped) ∧
      (item.Slot = "body" → m1.character.Equipped =
        if m.character.Equipped.Body.Name = item.Name
        then { m.character.Equipped with Body := Item.zero } else m.character.Equipped) ∧
      (item.Slot = "hands" → m1.character.Equipped =
        if m.character.Equipped.Hands.Name = item.Name
        then { m.character.Equipped with Hands := Item.zero } else m.character.Equipped) ∧
      (item.Slot = "feet" → m1.character.Equipped =
        if m.character.Equipped.Feet.Name = item.Name
        then { m.character.Equipped with Feet := Item.zero } else m.character.Equipped) ∧
      (item.Slot = "neck" → m1.character.Equipped =
        if m.character.Equipped.Neck.Name = item.Name
        then { m.character.Equipped with Neck := Item.zero } else m.character.Equipped) ∧
      (item.Slot = "ring" → m1.character.Equipped =
        if m.character.Equipped.Ring1.Name = item.Name
        then { m.character.Equipped with Ring1 := Item.zero }
        else if m.character.Equipped.Ring2.Name = item.Name
        then { m.character.Equipped with Ring2 := Item.zero } else m.character.Equipped) ∧
      (item.Slot ≠ "head" → item.Slot ≠ "body" → item.Slot ≠ "hands" →
        item.Slot ≠ "feet" → item.Slot ≠ "neck" → item.Slot ≠ "ring" →
        m1.character.Equipped = m.character.Equipped) := by
  have e1 : (toggleItem m i item).equipment = m.equipment.set i { item with Equipped := false } := by
    simp [toggleItem, hflag]
  have t1 : (toggleItem m i item).character.Equipped =
      unequipItem m.character.Equipped { item with Equipped := false } := by
    simp [toggleItem, hflag]
  refine ⟨toggleItem m i item, ?_, ?_, ?_, ?_, ?_, ?_, ?_, ?_, ?_, ?_⟩
  · rw [Update_space, keyToggle_item m i item hmode htab hcur hitem]
  · rw [e1]; exact getElem?_set_self_of_some _ _ _ _ hitem
  · intro j hj; rw [e1]; exact getElem?_set_other _ _ _ _ hj
  all_goals (rw [t1]; intros; simp [unequipItem, *])

theorem unequip_item_clears_matching_slot_only_witness :
    ∃ m1, Update demoExt wornCapModel (Msg.key " ") = some m1 ∧
      m1.equipment[0]? = some (mkItem "Cap" "head" false) ∧
      m1.character.Equipped = Equipped.zero := by
  obtain ⟨m1, h1, he, _, hhead, _⟩ :=
    unequip_item_clears_matching_slot_only demoExt wornCapModel 0 (mkItem "Cap" "head" true)
      rfl rfl rfl rfl rfl
  exact ⟨m1, h1, he, by rw [hhead rfl]; rfl⟩

/-! ### Equipping and unequipping weapons -/

/-- C6: in edit mode on the weapons tab with both hands empty, for three
different unequipped weapons with unspecified hand (the first two with non-empty
names), toggling them in sequence puts the first in MainHand and marks its entry
"main", puts the second in OffHand and marks its entry "off", and rejects the
third: its entry is unchanged (flag false) and the two hands still hold the
first and the second weapon. -/
theorem three_weapons_main_off_then_rejected (x : Ext TI) (m : Model TI) (i j k : Nat)
    (a b c : Weapon) (hmode : m.mode = "edit") (htab : m.activeTab = 4)
    (hcur : m.selectedWeapon = (i : Int))
    (hmain : m.character.Equipped.MainHand.Name = "")
    (hoff : m.character.Equipped.OffHand.Name = "")
    (hij : i ≠ j) (hik : i ≠ k) (hjk : j ≠ k)
    (ha : m.weapons[i]? = some a) (hb : m.weapons[j]? = some b) (hc : m.weapons[k]? = some c)
    (hfa : a.Equipped = false) (hfb : b.Equipped = false) (hfc : c.Equipped = false)
    (hna : a.Name ≠ "") (hnb : b.Name ≠ "")
    (hha : a.Hand = "") (hhb : b.Hand = "") (hhc : c.Hand = "") :
    ∃ m1, Update x m (Msg.key " ") = some m1 ∧
      ∃ m2, Update x { m1 with selectedWeapon := (j : Int) } (Msg.key " ") = some m2 ∧
        ∃ m3, Update x { m2 with selectedWeapon := (k : Int) } (Msg.key " ") = some m3 ∧
          m1.character.Equipped.MainHand = { a with Equipped := true } ∧
          m1.weapons[i]? = some { a with Equipped := true, Hand := "main" } ∧
          m2.character.Equipped.OffHand = { b with Equipped := true } ∧
          m2.weapons[j]? = some { b with Equipped := true, Hand := "off" } ∧
          m3.weapons[k]? = some c ∧
          m3.character.Equipped.MainHand = { a with Equipped := true } ∧
          m3.character.Equipped.OffHand = { b with Equipped := true } ∧
          m3.weapons[i]? = some { a with Equipped := true, Hand := "main" } ∧
          m3.weapons[j]? = some { b with Equipped := true, Hand := "off" } := by
  -- first toggle
  let m1 := toggleWeapon m i a
  have w1 : m1.weapons = m.weapons.set i { a with Equipped := true, Hand := "main" } := by
    simp [m1, toggleWeapon, equipWeapon, hfa, hha, hmain]
  have t1 : m1.character.Equipped =
      { m.character.Equipped with MainHand := { a with Equipped := true } } := by
    simp [m1, toggleWeapon, equipWeapon, hfa, hha, hmain]
  have hb1 : ({ m1 with selectedWeapon := (j : Int) } : Model TI).weapons[j]? = some b := by
    show m1.weapons[j]? = some b
    rw [w1, getElem?_set_other _ _ _ _ (Ne.symm hij)]; exact hb
  -- second toggle
  let m2 := toggleWeapon { m1 with selectedWeapon := (j : Int) } j b
  have w2 : m2.weapons = m1.weapons.set j { b with Equipped := true, Hand := "off" } := by
    simp [m2, toggleWeapon, equipWeapon, hfb, hhb, t1, hna, hoff]
  have t2 : m2.character.Equipped =
      { m1.character.Equipped with OffHand := { b with Equipped := true } } := by
    simp [m2, toggleWeapon, equipWeapon, hfb, hhb, t1, hna, hoff]
  have hc2 : ({ m2 with selectedWeapon := (k : Int) } : Model TI).weapons[k]? = some c := by
    show m2.weapons[k]? = some c
    rw [w2, getElem?_set_other _ _ _ _ (Ne.symm hjk), w1,
      getElem?_set_other _ _ _ _ (Ne.symm hik)]
    exact hc
  -- third toggle
  let m3 := toggleWeapon { m2 with selectedWeapon := (k : Int) } k c
  have w3 : m3.weapons = m2.weapons := by
    have : m3.weapons = m2.weapons.set k c := by
      obtain ⟨n, d, dm, p, wt, co, e, h⟩ := c
      simp only at hfc hhc
      subst hfc hhc
      simp [m3, toggleWeapon, equipWeapon, t2, t1, hna, hnb]
    rw [this]
    exact set_same_of_getElem? _ _ _ hc2
  have t3 : m3.character.Equipped = m2.character.Equipped := by
    simp [m3, toggleWeapon, equipWeapon, hfc, hhc, t2, t1, hna, hnb]
  have hai : m1.weapons[i]? = some { a with Equipped := true, Hand := "main" } := by
    rw [w1]; exact getElem?_set_self_of_some _ _ _ _ ha
  have hbj : m2.weapons[j]? = some { b with Equipped := true, Hand := "off" } := by
    rw [w2]; exact getElem?_set_self_of_some _ _ _ _ hb1
  have hmode1 : m1.mode = "edit" := by simpa [m1, toggleWeapon] using hmode
  have htab1 : m1.activeTab = 4 := by simpa [m1, toggleWeapon] using htab
  have hmode2 : m2.mode = "edit" := by simpa [m2, toggleWeapon] using hmode1
  have htab2 : m2.activeTab = 4 := by simpa [m2, toggleWeapon] using htab1
  refine ⟨m1, ?_, m2, ?_, m3, ?_, ?_, hai, ?_, hbj, ?_, ?_, ?_, ?_, ?_⟩
  · rw [Update_space, keyToggle_weapon m i a hmode htab hcur ha]
  · rw [Update_space, keyToggle_weapon { m1 with selectedWeapon := (j : Int) } j b hmode1 htab1 rfl hb1]
  · rw [Update_space, keyToggle_weapon { m2 with selectedWeapon := (k : Int) } k c hmode2 htab2 rfl hc2]
  · rw [t1]
  · rw [t2]
  · rw [w3]; exact hc2
  · rw [t3, t2, t1]
  · rw [t3, t2]
  · rw [w3, w2, getElem?_set_other _ _ _ _ hij]; exact hai
  · rw [w3]; exact hbj

theorem three_weapons_main_off_then_rejected_witness :
    ∃ m1, Update demoExt armoryModel (Msg.key " ") = some m1 ∧
      ∃ m2, Update demoExt { m1 with selectedWeapon := 1 } (Msg.key " ") = some m2 ∧
        ∃ m3, Update demoExt { m2 with selectedWeapon := 2 } (Msg.key " ") = some m3 ∧
          m3.character.Equipped.MainHand = mkWeapon "Sword" "" true ∧
          m3.character.Equipped.OffHand = mkWeapon "Dagger" "" true ∧
          m3.weapons = [mkWeapon "Sword" "main" true, mkWeapon "Dagger" "off" true,
            mkWeapon "Axe" "" false] := by
  obtain ⟨m1, h1, m2, h2, m3, h3, _, _, _, _, _, hm, ho, _, _⟩ :=
    three_weapons_main_off_then_rejected demoExt armoryModel 0 1 2
      (mkWeapon "Sword" "" false) (mkWeapon "Dagger" "" false) (mkWeapon "Axe" "" false)
      rfl rfl rfl rfl rfl (by decide) (by decide) (by decide) rfl rfl rfl rfl rfl rfl
      (by decide) (by decide) rfl rfl rfl
  refine ⟨m1, h1, m2, h2, m3, h3, hm, ho, ?_⟩
  cases h1; cases h2; cases h3; rfl

/-- C7: in edit mode on the weapons tab, toggling a weapon whose flag is set
clears its flag and its hand assignment and leaves the other entries alone; the
table is either unchanged, or MainHand alone is cleared and its occupant had the
weapon's name, or OffHand alone is cleared and its occupant had the weapon's
name; when neither hand's occupant has the weapon's name the table is
unchanged. -/
theorem unequip_weapon_clears_matching_hand_only (x : Ext TI) (m : Model TI) (i : Nat)
    (w : Weapon) (hmode : m.mode = "edit") (htab : m.activeTab = 4)
    (hcur : m.selectedWeapon = (i : Int)) (hw : m.weapons[i]? = some w)
    (hflag : w.Equipped = true) :
    ∃ m1, Update x m (Msg.key " ") = some m1 ∧
      m1.weapons[i]? = some { w with Equipped := false, Hand := "" } ∧
      (∀ j, j ≠ i → m1.weapons[j]? = m.weapons[j]?) ∧
      (m1.character.Equipped = m.character.Equipped ∨
        (m.character.Equipped.MainHand.Name = w.Name ∧ m1.character.Equipped =
          { m.character.Equipped with MainHand := Weapon.zero }) ∨
        (m.character.Equipped.OffHand.Name = w.Name ∧ m1.character.Equipped =
          { m.character.Equipped with OffHand := Weapon.zero })) ∧
      (m.character.Equipped.MainHand.Name ≠ w.Name →
        m.character.Equipped.OffHand.Name ≠ w.Name →
        m1.character.Equipped = m.character.Equipped) := by
  have e1 : (toggleWeapon m i w).weapons =
      m.weapons.set i { w with Equipped := false, Hand := "" } := by
    simp [toggleWeapon, unequipWeapon, hflag]
  have t1 : (toggleWeapon m i w).character.Equipped =
      (unequipWeapon m.character.Equipped { w with Equipped := false }).1 := by
    simp [toggleWeapon, hflag]
  refine ⟨toggleWeapon m i w, ?_, ?_, ?_, ?_, ?_⟩
  · rw [Update_space, keyToggle_weapon m i w hmode htab hcur hw]
  · rw [e1]; exact getElem?_set_self_of_some _ _ _ _ hw
  · intro j hj; rw [e1]; exact getElem?_set_other _ _ _ _ hj
  · rw [t1]
    simp only [unequipWeapon]
    split_ifs with h1 h2
    · exact Or.inr (Or.inl ⟨h1.2, rfl⟩)
    · exact Or.inr (Or.inr ⟨h2.2, rfl⟩)
    · exact Or.inl rfl
  · intro h1 h2
    rw [t1]
    simp [unequipWeapon, h1, h2]

theorem unequip_weapon_clears_matching_hand_only_witness :
    ∃ m1, Update demoExt swordInHandModel (Msg.key " ") = some m1 ∧
      m1.weapons[0]? = some (mkWeapon "Sword" "" false) ∧
      m1.character.Equipped = Equipped.zero := by
  obtain ⟨m1, h1, he, _, _, _⟩ :=
    unequip_weapon_clears_matching_hand_only demoExt swordInHandModel 0
      (mkWeapon "Sword" "main" true) rfl rfl rfl rfl rfl
  refine ⟨m1, h1, he, ?_⟩
  cases h1; rfl

/-! ### Classification of steps -/

theorem Update_advance (x : Ext TI) (m : Model TI) (k : String) (hk : k ∈ advanceKeys) :
    Update x m (Msg.key k) = keyAdvance m := by
  simp only [advanceKeys, List.mem_cons, List.mem_singleton, List.not_mem_nil, or_false] at hk
  rcases hk with h | h | h | h <;> subst h <;> simp [Update]

theorem Update_retreat (x : Ext TI) (m : Model TI) (k : String) (hk : k ∈ retreatKeys) :
    Update x m (Msg.key k) = keyRetreat m := by
  simp only [retreatKeys, List.mem_cons, List.mem_singleton, List.not_mem_nil, or_false] at hk
  rcases hk with h | h | h | h <;> subst h <;> simp [Update]

theorem Frame_refl (m : Model TI) : Frame m m := ⟨rfl, rfl, rfl, rfl, rfl, rfl, rfl, rfl⟩

theorem keySave_frame (x : Ext TI) (m : Model TI) : Frame m (keySave x m) := by
  unfold keySave
  split_ifs
  · cases x.saveCharacter m.character <;> exact ⟨rfl, rfl, rfl, rfl, rfl, rfl, rfl, rfl⟩
  · exact Frame_refl m

theorem updateCharacterData_frame (x : Ext TI) (m : Model TI) :
    Frame m (updateCharacterData x m) := by
  refine ⟨?_, rfl, rfl, rfl, rfl, rfl, rfl, rfl⟩
  unfold updateCharacterData
  simp only
  split_ifs <;> rfl

theorem updateInputs_frame (x : Ext TI) (m m1 : Model TI) (msg : Msg)
    (h : updateInputs x m msg = some m1) : Frame m m1 := by
  unfold updateInputs at h
  split at h
  · cases h; exact Frame_refl m
  · cases h
  · next hi =>
    cases h
    exact ⟨rfl, rfl, rfl, rfl, rfl, rfl, rfl, by simp [hi]⟩

theorem keyInventory_frame (m : Model TI) : Frame m (keyInventory m) := by
  unfold keyInventory
  split_ifs
  · exact ⟨rfl, rfl, rfl, rfl, rfl, rfl, rfl, rfl⟩
  · exact Frame_refl m

theorem keyEquipped_frame (m : Model TI) : Frame m (keyEquipped m) := by
  unfold keyEquipped
  split_ifs
  · exact ⟨rfl, rfl, rfl, rfl, rfl, rfl, rfl, rfl⟩
  · exact Frame_refl m

/-- Every step is a navigation step, an add, a toggle, or leaves the frame alone. -/
theorem Update_cases (x : Ext TI) (m m1 : Model TI) (msg : Msg)
    (h : Update x m msg = some m1) :
    keyAdvance m = some m1 ∨ keyRetreat m = some m1 ∨ m1 = keyAdd x m ∨
      m1 = keyToggle m ∨ Frame m m1 := by
  have fr : ∀ {a : Model TI}, Frame m a →
      keyAdvance m = some a ∨ keyRetreat m = some a ∨ a = keyAdd x m ∨
        a = keyToggle m ∨ Frame m a :=
    fun hf => Or.inr (Or.inr (Or.inr (Or.inr hf)))
  cases msg with
  | other => exact fr (updateInputs_frame x m m1 _ h)
  | key s =>
    unfold Update at h
    simp only at h
    by_cases c1 : s = "ctrl+c" ∨ s = "q"
    · rw [if_pos c1] at h; cases h; exact fr (Frame_refl m)
    rw [if_neg c1] at h
    by_cases c2 : s = "right" ∨ s = "l" ∨ s = "n" ∨ s = "tab"
    · rw [if_pos c2] at h; exact Or.inl h
    rw [if_neg c2] at h
    by_cases c3 : s = "left" ∨ s = "h" ∨ s = "p" ∨ s = "shift+tab"
    · rw [if_pos c3] at h; exact Or.inr (Or.inl h)
    rw [if_neg c3] at h
    by_cases c4 : s = "e"
    · rw [if_pos c4] at h; cases h; exact fr ⟨rfl, rfl, rfl, rfl, rfl, rfl, rfl, rfl⟩
    rw [if_neg c4] at h
    by_cases c5 : s = "v"
    · rw [if_pos c5] at h; cases h; exact fr ⟨rfl, rfl, rfl, rfl, rfl, rfl, rfl, rfl⟩
    rw [if_neg c5] at h
    by_cases c6 : s = "s"
    · rw [if_pos c6] at h; cases h; exact fr (keySave_frame x m)
    rw [if_neg c6] at h
    by_cases c7 : s = "a"
    · rw [if_pos c7] at h; cases h; exact Or.inr (Or.inr (Or.inl rfl))
    rw [if_neg c7] at h
    by_cases c8 : s = "enter"
    · rw [if_pos c8] at h
      by_cases c9 : m.mode = "edit"
      · rw [if_pos c9] at h; cases h; exact fr (updateCharacterData_frame x m)
      · rw [if_neg c9] at h; exact fr (updateInputs_frame x m m1 _ h)
    rw [if_neg c8] at h
    by_cases c10 : s = " "
    · rw [if_pos c10] at h; cases h; exact Or.inr (Or.inr (Or.inr (Or.inl rfl)))
    rw [if_neg c10] at h
    by_cases c11 : s = "i"
    · rw [if_pos c11] at h; cases h; exact fr (keyInventory_frame m)
    rw [if_neg c11] at h
    by_cases c12 : s = "w"
    · rw [if_pos c12] at h; cases h; exact fr (keyEquipped_frame m)
    rw [if_neg c12] at h
    exact fr (updateInputs_frame x m m1 _ h)

theorem goRem_map_some {β : Type} (a b : Int) (f : Int → β) (r : β)
    (h : (goRem a b).map f = some r) : b ≠ 0 ∧ r = f (Int.tmod a b) := by
  unfold goRem at h
  split_ifs at h with hb
  · cases h
  · simp at h; exact ⟨hb, h.symm⟩

theorem keyAdvance_step (m m1 : Model TI) (h : keyAdvance m = some m1) : NavStep m m1 := by
  unfold keyAdvance at h
  split_ifs at h with h1 h2
  · obtain ⟨_, rfl⟩ := goRem_map_some _ _ _ _ h
    exact ⟨rfl, rfl, rfl, rfl, rfl, Or.inl ⟨h1.1, h1.1, rfl⟩⟩
  · obtain ⟨_, rfl⟩ := goRem_map_some _ _ _ _ h
    exact ⟨rfl, rfl, rfl, rfl, rfl, Or.inr (Or.inl ⟨h2.1, h2.1, rfl⟩)⟩
  · obtain ⟨_, rfl⟩ := goRem_map_some _ _ _ _ h
    exact ⟨rfl, rfl, rfl, rfl, rfl, Or.inr (Or.inr ⟨rfl, rfl⟩)⟩

theorem keyRetreat_step (m m1 : Model TI) (h : keyRetreat m = some m1) : NavStep m m1 := by
  unfold keyRetreat at h
  split_ifs at h with h1 h2
  · obtain ⟨_, rfl⟩ := goRem_map_some _ _ _ _ h
    exact ⟨rfl, rfl, rfl, rfl, rfl, Or.inl ⟨h1.1, h1.1, rfl⟩⟩
  · obtain ⟨_, rfl⟩ := goRem_map_some _ _ _ _ h
    exact ⟨rfl, rfl, rfl, rfl, rfl, Or.inr (Or.inl ⟨h2.1, h2.1, rfl⟩)⟩
  · obtain ⟨_, rfl⟩ := goRem_map_some _ _ _ _ h
    exact ⟨rfl, rfl, rfl, rfl, rfl, Or.inr (Or.inr ⟨rfl, rfl⟩)⟩

theorem keyAdd_cursorFrame (x : Ext TI) (m : Model TI) : CursorFrame m (keyAdd x m) := by
  unfold keyAdd appendEquipment appendWeapons
  split_ifs <;> exact ⟨rfl, rfl, rfl, rfl, rfl⟩

theorem toggleItem_cursorFrame (m : Model TI) (i : Nat) (it : Item) :
    CursorFrame m (toggleItem m i it) := ⟨rfl, rfl, rfl, rfl, rfl⟩

theorem toggleWeapon_cursorFrame (m : Model TI) (i : Nat) (w : Weapon) :
    CursorFrame m (toggleWeapon m i w) := ⟨rfl, rfl, rfl, rfl, rfl⟩

theorem keyToggle_cursorFrame (m : Model TI) : CursorFrame m (keyToggle m) := by
  unfold keyToggle
  split_ifs
  · split
    · exact toggleItem_cursorFrame _ _ _
    · exact ⟨rfl, rfl, rfl, rfl, rfl⟩
  · split
    · exact toggleWeapon_cursorFrame _ _ _
    · exact ⟨rfl, rfl, rfl, rfl, rfl⟩
  · exact ⟨rfl, rfl, rfl, rfl, rfl⟩
  · exact ⟨rfl, rfl, rfl, rfl, rfl⟩

/-! ### Runs -/

theorem reachable_of_run (x : Ext TI) (msgs : List Msg) (m m1 : Model TI)
    (hm : Reachable m) (h : run x m msgs = some m1) : Reachable m1 := by
  induction msgs generalizing m with
  | nil => simp [run] at h; subst h; exact hm
  | cons msg rest ih =>
    simp only [run] at h
    cases hu : Update x m msg with
    | none => rw [hu] at h; simp at h
    | some m2 =>
      rw [hu] at h
      exact ih m2 (Reachable.step x msg hm hu) h

/-! ### Cursor invariant -/

theorem cursorInv_of_navStep (m m1 : Model TI) (h : NavStep m m1) (hi : CursorInv m) :
    CursorInv m1 := by
  obtain ⟨_, _, _, _, _, h3 | h4 | hr⟩ := h
  · obtain ⟨ht, ht1, hw⟩ := h3
    refine ⟨fun hne => absurd ht1 hne, fun _ => ?_⟩
    rw [hw]; exact hi.2 (by rw [ht]; decide)
  · obtain ⟨ht, ht1, hs⟩ := h4
    refine ⟨fun _ => ?_, fun hne => absurd ht1 hne⟩
    rw [hs]; exact hi.1 (by rw [ht]; decide)
  · exact ⟨fun _ => hr.1, fun _ => hr.2⟩

theorem cursorInv_of_cursorFrame (m m1 : Model TI) (h : CursorFrame m m1)
    (hi : CursorInv m) : CursorInv m1 := by
  obtain ⟨ht, hs, hw, _, _⟩ := h
  unfold CursorInv
  rw [ht, hs, hw]; exact hi

theorem cursorInv_of_frame (m m1 : Model TI) (h : Frame m m1)
    (hi : CursorInv m) : CursorInv m1 := by
  obtain ⟨_, _, _, ht, hs, hw, _, _⟩ := h
  unfold CursorInv
  rw [ht, hs, hw]; exact hi

theorem cursorInv_step (x : Ext TI) (m m1 : Model TI) (msg : Msg)
    (h : Update x m msg = some m1) (hi : CursorInv m) : CursorInv m1 := by
  rcases Update_cases x m m1 msg h with h1 | h1 | h1 | h1 | h1
  · exact cursorInv_of_navStep m m1 (keyAdvance_step m m1 h1) hi
  · exact cursorInv_of_navStep m m1 (keyRetreat_step m m1 h1) hi
  · subst h1; exact cursorInv_of_cursorFrame m _ (keyAdd_cursorFrame x m) hi
  · subst h1; exact cursorInv_of_cursorFrame m _ (keyToggle_cursorFrame m) hi
  · exact cursorInv_of_frame m m1 h1 hi

theorem panicFree_step (x : Ext TI) (m m1 : Model TI) (msg : Msg)
    (h : Update x m msg = some m1) (hi : PanicFree m) : PanicFree m1 := by
  unfold PanicFree at *
  rcases Update_cases x m m1 msg h with h1 | h1 | h1 | h1 | h1
  · obtain ⟨_, _, _, ht, hin, _⟩ := keyAdvance_step m m1 h1
    rw [ht, hin]; exact hi
  · obtain ⟨_, _, _, ht, hin, _⟩ := keyRetreat_step m m1 h1
    rw [ht, hin]; exact hi
  · subst h1
    obtain ⟨_, _, _, ht, hin⟩ := keyAdd_cursorFrame x m
    rw [ht, hin]; exact hi
  · subst h1
    obtain ⟨_, _, _, ht, hin⟩ := keyToggle_cursorFrame m
    rw [ht, hin]; exact hi
  · obtain ⟨_, _, _, _, _, _, ht, hin⟩ := h1
    rw [ht, hin]; exact hi

theorem cursorInv_initial (x : Ext TI) (srd : SRDData) : CursorInv (initialModel x srd) :=
  ⟨fun _ => rfl, fun _ => rfl⟩

theorem panicFree_initial (x : Ext TI) (srd : SRDData) : PanicFree (initialModel x srd) :=
  ⟨by simp [initialModel, initialTabs], rfl⟩

theorem reachable_cursorInv (m : Model TI) (h : Reachable m) : CursorInv m := by
  induction h with
  | init x srd => exact cursorInv_initial x srd
  | step x msg _ hstep ih => exact cursorInv_step x _ _ msg hstep ih

theorem reachable_panicFree (m : Model TI) (h : Reachable m) : PanicFree m := by
  induction h with
  | init x srd => exact panicFree_initial x srd
  | step x msg _ hstep ih => exact panicFree_step x _ _ msg hstep ih

theorem goRem_isSome (a b : Int) (hb : b ≠ 0) : goRem a b = some (Int.tmod a b) := by
  simp [goRem, hb]

theorem length_cast_ne_zero {α : Type} (l : List α) (h : l ≠ []) : (l.length : Int) ≠ 0 := by
  have : l.length ≠ 0 := by simpa using h
  exact_mod_cast this

theorem keyAdvance_total (m : Model TI) (ht : m.tabs ≠ []) : ∃ m1, keyAdvance m = some m1 := by
  unfold keyAdvance
  split_ifs with h1 h2
  · rw [goRem_isSome _ _ (by have := h1.2.2; omega)]; exact ⟨_, rfl⟩
  · rw [goRem_isSome _ _ (by have := h2.2; omega)]; exact ⟨_, rfl⟩
  · rw [goRem_isSome _ _ (length_cast_ne_zero _ ht)]; exact ⟨_, rfl⟩

theorem keyRetreat_total (m : Model TI) (ht : m.tabs ≠ []) : ∃ m1, keyRetreat m = some m1 := by
  unfold keyRetreat
  split_ifs with h1 h2
  · rw [goRem_isSome _ _ (by have := h1.2.2; omega)]; exact ⟨_, rfl⟩
  · rw [goRem_isSome _ _ (by have := h2.2; omega)]; exact ⟨_, rfl⟩
  · rw [goRem_isSome _ _ (length_cast_ne_zero _ ht)]; exact ⟨_, rfl⟩

/-- C10: in every state reachable from the initial model, a cursor is -1
whenever its owning tab is not the active one (activeTab other than 3 gives
selectedItem = -1, activeTab other than 4 gives selectedWeapon = -1); and every
advance or retreat key returns a model in which, if the active tab changed, both
cursors are -1. -/
theorem cursor_reset_off_owning_tab (m : Model TI) (h : Reachable m) :
    (m.activeTab ≠ 3 → m.selectedItem = -1) ∧
    (m.activeTab ≠ 4 → m.selectedWeapon = -1) ∧
    ∀ (x : Ext TI) (k : String), k ∈ advanceKeys ∨ k ∈ retreatKeys →
      ∃ m1, Update x m (Msg.key k) = some m1 ∧
        (m1.activeTab ≠ m.activeTab → m1.selectedItem = -1 ∧ m1.selectedWeapon = -1) := by
  have hi := reachable_cursorInv m h
  have hs := reachable_panicFree m h
  refine ⟨hi.1, hi.2, ?_⟩
  intro x k hk
  have key : ∀ m1, NavStep m m1 →
      (m1.activeTab ≠ m.activeTab → m1.selectedItem = -1 ∧ m1.selectedWeapon = -1) := by
    intro m1 hn hne
    obtain ⟨_, _, _, _, _, h3 | h4 | hr⟩ := hn
    · exact absurd (h3.2.1.trans h3.1.symm) hne
    · exact absurd (h4.2.1.trans h4.1.symm) hne
    · exact hr
  rcases hk with hk | hk
  · obtain ⟨m1, h1⟩ := keyAdvance_total m hs.1
    exact ⟨m1, by rw [Update_advance x m k hk]; exact h1, key m1 (keyAdvance_step m m1 h1)⟩
  · obtain ⟨m1, h1⟩ := keyRetreat_total m hs.1
    exact ⟨m1, by rw [Update_retreat x m k hk]; exact h1, key m1 (keyRetreat_step m m1 h1)⟩

theorem cursor_reset_off_owning_tab_witness :
    ∃ m : Model Unit,
      run demoExt (initialModel demoExt demoSRD) cursorWalkKeys = some m ∧
      m.activeTab = 3 ∧ m.selectedItem = 0 ∧ m.selectedWeapon = -1 :=
  ⟨_, rfl, rfl, rfl,
    (cursor_reset_off_owning_tab _
      (reachable_of_run demoExt cursorWalkKeys _ _ (Reachable.init demoExt demoSRD) rfl)).2.1
      (by decide)⟩

/-! ### Advancing the inventory cursor -/

theorem wrapInt_of_range (a : Int) (h1 : -(2 ^ 63) ≤ a) (h2 : a < 2 ^ 63) : wrapInt a = a := by
  unfold wrapInt
  omega

theorem advance_inventory (x : Ext TI) (m : Model TI) (k : String) (hk : k ∈ advanceKeys)
    (n : Nat) (c : Int) (htab : m.activeTab = 3) (hview : m.equipMode = "inventory")
    (hlen : m.equipment.length = n) (hpos : 0 < n) (hfit : n < 2 ^ 63)
    (hcur : m.selectedItem = c) (hlo : -1 ≤ c) (hhi : c < n) :
    Update x m (Msg.key k) = some { m with selectedItem := (c + 1) % (n : Int) } := by
  rw [Update_advance x m k hk]
  unfold keyAdvance
  have hfit2 : (n : Int) < 2 ^ 63 := by exact_mod_cast hfit
  have hn0 : (n : Int) ≠ 0 := by omega
  rw [if_pos ⟨htab, hview, by omega⟩, hlen, hcur, goRem_isSome _ _ hn0,
    wrapInt_of_range _ (by omega) (by omega),
    Int.tmod_eq_emod (by omega) (by omega)]
  rfl

theorem advance_empty_inventory (m m1 : Model TI) (he : m.equipment = [])
    (hcur : m.selectedItem = -1) (h : keyAdvance m = some m1) : m1.selectedItem = -1 := by
  unfold keyAdvance at h
  split_ifs at h with h1 h2
  · rw [he] at h1; simp at h1
  · obtain ⟨_, rfl⟩ := goRem_map_some _ _ _ _ h
    exact hcur
  · obtain ⟨_, rfl⟩ := goRem_map_some _ _ _ _ h
    rfl

/-- C9: an advance key on the equipment tab in the inventory sub-view, with n > 0
entries (n a Go slice length) and cursor c in [-1, n), returns a model whose
inventory cursor is (c + 1) mod n with the same active tab and inventory; hence
on three entries four advances from -1 give 0, 1, 2, 0; and with an empty
inventory (cursor -1) every returned model has the inventory cursor at -1, and
a model is returned whenever the tab list is non-empty. -/
theorem advance_cycles_inventory_cursor (x : Ext TI) (m : Model TI) (k : String)
    (hk : k ∈ advanceKeys) :
    (∀ (n : Nat) (c : Int), m.activeTab = 3 → m.equipMode = "inventory" →
      m.equipment.length = n → 0 < n → n < 2 ^ 63 → m.selectedItem = c → -1 ≤ c → c < n →
      ∃ m1, Update x m (Msg.key k) = some m1 ∧ m1.selectedItem = (c + 1) % (n : Int) ∧
        m1.activeTab = m.activeTab ∧ m1.equipment = m.equipment) ∧
    (m.activeTab = 3 → m.equipMode = "inventory" → m.equipment.length = 3 →
      m.selectedItem = -1 →
      ∃ m1 m2 m3 m4, Update x m (Msg.key k) = some m1 ∧ Update x m1 (Msg.key k) = some m2 ∧
        Update x m2 (Msg.key k) = some m3 ∧ Update x m3 (Msg.key k) = some m4 ∧
        m1.selectedItem = 0 ∧ m2.selectedItem = 1 ∧ m3.selectedItem = 2 ∧
        m4.selectedItem = 0) ∧
    (m.equipment = [] → m.selectedItem = -1 →
      (∀ m1, Update x m (Msg.key k) = some m1 → m1.selectedItem = -1) ∧
      (m.tabs ≠ [] → ∃ m1, Update x m (Msg.key k) = some m1)) := by
  refine ⟨?_, ?_, ?_⟩
  · intro n c htab hview hlen hpos hfit hcur hlo hhi
    exact ⟨_, advance_inventory x m k hk n c htab hview hlen hpos hfit hcur hlo hhi,
      rfl, rfl, rfl⟩
  · intro htab hview hlen hcur
    have next : ∀ (a : Model TI) (c : Int), a.activeTab = 3 → a.equipMode = "inventory" →
        a.equipment.length = 3 → a.selectedItem = c → -1 ≤ c → c < 3 →
        ∃ a1, Update x a (Msg.key k) = some a1 ∧ a1.selectedItem = (c + 1) % 3 ∧
          a1.activeTab = 3 ∧ a1.equipMode = "inventory" ∧ a1.equipment.length = 3 := by
      intro a c ht hv hl hc hlo hhi
      exact ⟨_, advance_inventory x a k hk 3 c ht hv hl (by decide) (by norm_num) hc hlo
        (by exact_mod_cast hhi), rfl, ht, hv, hl⟩
    obtain ⟨m1, u1, c1, t1, v1, l1⟩ := next m (-1) htab hview hlen hcur (by decide) (by decide)
    obtain ⟨m2, u2, c2, t2, v2, l2⟩ := next m1 0 t1 v1 l1 c1 (by decide) (by decide)
    obtain ⟨m3, u3, c3, t3, v3, l3⟩ := next m2 1 t2 v2 l2 c2 (by decide) (by decide)
    obtain ⟨m4, u4, c4, _, _, _⟩ := next m3 2 t3 v3 l3 c3 (by decide) (by decide)
    exact ⟨m1, m2, m3, m4, u1, u2, u3, u4, c1, c2, c3, c4⟩
  · intro he hcur
    refine ⟨fun m1 h => ?_, fun ht => ?_⟩
    · rw [Update_advance x m k hk] at h
      exact advance_empty_inventory m m1 he hcur h
    · rw [Update_advance x m k hk]
      exact keyAdvance_total m ht

theorem advance_cycles_inventory_cursor_witness :
    (∃ m1 m2 m3 m4, Update demoExt threeItemModel (Msg.key "right") = some m1 ∧
      Update demoExt m1 (Msg.key "right") = some m2 ∧
      Update demoExt m2 (Msg.key "right") = some m3 ∧
      Update demoExt m3 (Msg.key "right") = some m4 ∧
      m1.selectedItem = 0 ∧ m2.selectedItem = 1 ∧ m3.selectedItem = 2 ∧
      m4.selectedItem = 0) ∧
    (∃ m1, Update demoExt demoModel (Msg.key "tab") = some m1 ∧ m1.selectedItem = -1) := by
  have h := advance_cycles_inventory_cursor demoExt threeItemModel "right" (by decide)
  have h0 := advance_cycles_inventory_cursor demoExt demoModel "tab" (by decide)
  refine ⟨h.2.1 rfl rfl rfl rfl, ?_⟩
  obtain ⟨m1, u⟩ := (h0.2.2 rfl rfl).2 (by decide)
  exact ⟨m1, u, (h0.2.2 rfl rfl).1 m1 u⟩

/-! ### The table is backed by the working lists -/

theorem mem_set_of_mem_ne {α : Type} {l : List α} {i : Nat} {a b v : α}
    (ha : a ∈ l) (hb : l[i]? = some b) (hne : a ≠ b) : a ∈ l.set i v := by
  obtain ⟨j, hj⟩ := List.mem_iff_getElem?.mp ha
  have hji : j ≠ i := by
    intro h; subst h; rw [hb] at hj; exact hne (Option.some.inj hj).symm
  exact List.mem_iff_getElem?.mpr ⟨j, by rw [getElem?_set_other _ _ _ _ hji]; exact hj⟩

theorem mem_set_self_of_some {α : Type} {l : List α} {i : Nat} {b : α} (v : α)
    (hb : l[i]? = some b) : v ∈ l.set i v :=
  List.mem_iff_getElem?.mpr ⟨i, getElem?_set_self_of_some _ _ _ _ hb⟩

theorem forall_mem_set {α : Type} {P : α → Prop} {l : List α} (i : Nat) {v : α}
    (hall : ∀ a, a ∈ l → P a) (hv : P v) : ∀ a, a ∈ l.set i v → P a := by
  intro a ha
  rcases List.mem_or_eq_of_mem_set ha with h | h
  · exact hall a h
  · rw [h]; exact hv

theorem backed_of_sampleInv (e : Equipped) (items : List Item) (weapons : List Weapon)
    (h : SampleInv e items weapons) : Backed e items weapons := by
  obtain ⟨_, h1, h2, h3, h4, h5, h6, h7, hn, hm, ho⟩ := h
  constructor
  · intro s hs hne
    simp only [List.mem_cons, List.mem_singleton, List.not_mem_nil, or_false] at hs
    rw [h1, h2, h3, h4, h5, h6, h7] at hs
    exact absurd (by rcases hs with h | h | h | h | h | h | h <;> exact h) hne
  · intro s hs hne
    simp only [List.mem_cons, List.mem_singleton, List.not_mem_nil, or_false] at hs
    rcases hs with h | h
    · subst h
      rcases hm with hz | ⟨hname, w, hw, hf, _⟩
      · exact absurd hz hne
      · exact ⟨w, hw, by rw [hn w hw, hname], hf⟩
    · subst h
      rcases ho with hz | ⟨hname, w, hw, hf, _⟩
      · exact absurd hz hne
      · exact ⟨w, hw, by rw [hn w hw, hname], hf⟩

theorem handHeld_set {ws : List Weapon} {held : Weapon} {hand : String} {i : Nat}
    {w : Weapon} (v : Weapon) (h : HandHeld ws held hand) (hw : ws[i]? = some w)
    (hsafe : w.Equipped = false ∨ w.Hand ≠ hand ∨ held.Name ≠ "Longsword") :
    HandHeld (ws.set i v) held hand := by
  rcases h with hz | ⟨hname, u, hu, hf, hh⟩
  · exact Or.inl hz
  · refine Or.inr ⟨hname, u, mem_set_of_mem_ne hu hw ?_, hf, hh⟩
    intro huw
    subst huw
    rcases hsafe with h1 | h1 | h1
    · rw [hf] at h1; cases h1
    · exact h1 hh
    · exact h1 hname

theorem handHeld_append {ws : List Weapon} {held : Weapon} {hand : String} (v : Weapon)
    (h : HandHeld ws held hand) : HandHeld (ws ++ [v]) held hand := by
  rcases h with hz | ⟨hname, u, hu, hf, hh⟩
  · exact Or.inl hz
  · exact Or.inr ⟨hname, u, List.mem_append_left _ hu, hf, hh⟩

theorem toggleItem_sampleInv (m : Model TI) (i : Nat) (it : Item)
    (hinv : SampleInv m.character.Equipped m.equipment m.weapons)
    (hit : m.equipment[i]? = some it) :
    SampleInv (toggleItem m i it).character.Equipped (toggleItem m i it).equipment
      (toggleItem m i it).weapons := by
  obtain ⟨hb, h1, h2, h3, h4, h5, h6, h7, hn, hm, ho⟩ := hinv
  have hs : it.Slot = "back" := hb it (List.mem_iff_getElem?.mpr ⟨i, hit⟩)
  have hE : (toggleItem m i it).character.Equipped = m.character.Equipped := by
    cases hf : it.Equipped <;> simp [toggleItem, equipItem, unequipItem, hs, hf]
  have hL : ∃ v : Item, v.Slot = "back" ∧ (toggleItem m i it).equipment = m.equipment.set i v := by
    cases hf : it.Equipped
    · exact ⟨{ it with Equipped := true }, hs, by simp [toggleItem, equipItem, hs, hf]⟩
    · exact ⟨{ it with Equipped := false }, hs, by simp [toggleItem, hf]⟩
  obtain ⟨v, hv, hL⟩ := hL
  have hW : (toggleItem m i it).weapons = m.weapons := rfl
  rw [hE, hL, hW]
  exact ⟨forall_mem_set i hb hv, h1, h2, h3, h4, h5, h6, h7, hn, hm, ho⟩

theorem toggleWeapon_sampleInv (m : Model TI) (i : Nat) (w : Weapon)
    (hinv : SampleInv m.character.Equipped m.equipment m.weapons)
    (hw : m.weapons[i]? = some w) :
    SampleInv (toggleWeapon m i w).character.Equipped (toggleWeapon m i w).equipment
      (toggleWeapon m i w).weapons := by
  obtain ⟨hb, h1, h2, h3, h4, h5, h6, h7, hn, hm, ho⟩ := hinv
  have hname : w.Name = "Longsword" := hn w (List.mem_iff_getElem?.mpr ⟨i, hw⟩)
  have hI : (toggleWeapon m i w).equipment = m.equipment := rfl
  rw [hI]
  cases hf : w.Equipped
  · -- equip
    by_cases c0 : w.Hand = "main" ∨ w.Hand = ""
    · by_cases c1 : m.character.Equipped.MainHand.Name = ""
      · have hE : (toggleWeapon m i w).character.Equipped =
            { m.character.Equipped with MainHand := { w with Equipped := true } } := by
          simp [toggleWeapon, equipWeapon, hf, c0, c1]
        have hL : (toggleWeapon m i w).weapons =
            m.weapons.set i { w with Equipped := true, Hand := "main" } := by
          simp [toggleWeapon, equipWeapon, hf, c0, c1]
        rw [hE, hL]
        refine ⟨hb, h1, h2, h3, h4, h5, h6, h7, forall_mem_set i hn hname, ?_, ?_⟩
        · exact Or.inr ⟨hname, _, mem_set_self_of_some _ hw, rfl, rfl⟩
        · exact handHeld_set _ ho hw (Or.inl hf)
      · by_cases c2 : m.character.Equipped.OffHand.Name = ""
        · have hE : (toggleWeapon m i w).character.Equipped =
              { m.character.Equipped with OffHand := { w with Equipped := true } } := by
            simp [toggleWeapon, equipWeapon, hf, c0, c1, c2]
          have hL : (toggleWeapon m i w).weapons =
              m.weapons.set i { w with Equipped := true, Hand := "off" } := by
            simp [toggleWeapon, equipWeapon, hf, c0, c1, c2]
          rw [hE, hL]
          refine ⟨hb, h1, h2, h3, h4, h5, h6, h7, forall_mem_set i hn hname, ?_, ?_⟩
          · exact handHeld_set _ hm hw (Or.inl hf)
          · exact Or.inr ⟨hname, _, mem_set_self_of_some _ hw, rfl, rfl⟩
        · have hE : (toggleWeapon m i w).character.Equipped = m.character.Equipped := by
            simp [toggleWeapon, equipWeapon, hf, c0, c1, c2]
          have hL : (toggleWeapon m i w).weapons =
              m.weapons.set i { w with Equipped := false } := by
            simp [toggleWeapon, equipWeapon, hf, c0, c1, c2]
          rw [hE, hL]
          exact ⟨hb, h1, h2, h3, h4, h5, h6, h7, forall_mem_set i hn hname,
            handHeld_set _ hm hw (Or.inl hf), handHeld_set _ ho hw (Or.inl hf)⟩
    · have hE : (toggleWeapon m i w).character.Equipped = m.character.Equipped := by
        simp [toggleWeapon, equipWeapon, hf, c0]
      have hL : (toggleWeapon m i w).weapons =
          m.weapons.set i { w with Equipped := true } := by
        simp [toggleWeapon, equipWeapon, hf, c0]
      rw [hE, hL]
      exact ⟨hb, h1, h2, h3, h4, h5, h6, h7, forall_mem_set i hn hname,
        handHeld_set _ hm hw (Or.inl hf), handHeld_set _ ho hw (Or.inl hf)⟩
  · -- unequip
    have hL : (toggleWeapon m i w).weapons =
        m.weapons.set i { w with Equipped := false, Hand := "" } := by
      simp [toggleWeapon, unequipWeapon, hf]
    rw [hL]
    by_cases c1 : w.Hand = "main" ∧ m.character.Equipped.MainHand.Name = w.Name
    · have hE : (toggleWeapon m i w).character.Equipped =
          { m.character.Equipped with MainHand := Weapon.zero } := by
        simp [toggleWeapon, unequipWeapon, hf, c1]
      rw [hE]
      refine ⟨hb, h1, h2, h3, h4, h5, h6, h7, forall_mem_set i hn hname, Or.inl rfl, ?_⟩
      exact handHeld_set _ ho hw (Or.inr (Or.inl (by rw [c1.1]; decide)))
    · by_cases c2 : w.Hand = "off" ∧ m.character.Equipped.OffHand.Name = w.Name
      · have hE : (toggleWeapon m i w).character.Equipped =
            { m.character.Equipped with OffHand := Weapon.zero } := by
          simp only [toggleWeapon, unequipWeapon, hf]
          simp [c1, c2]
        rw [hE]
        refine ⟨hb, h1, h2, h3, h4, h5, h6, h7, forall_mem_set i hn hname, ?_, Or.inl rfl⟩
        exact handHeld_set _ hm hw (Or.inr (Or.inl (by rw [c2.1]; decide)))
      · have hE : (toggleWeapon m i w).character.Equipped = m.character.Equipped := by
          simp only [toggleWeapon, unequipWeapon, hf]
          simp [c1, c2]
        rw [hE]
        refine ⟨hb, h1, h2, h3, h4, h5, h6, h7, forall_mem_set i hn hname, ?_, ?_⟩
        · apply handHeld_set _ hm hw
          by_cases hh : w.Hand = "main"
          · exact Or.inr (Or.inr (fun hN => c1 ⟨hh, by rw [hN, hname]⟩))
          · exact Or.inr (Or.inl hh)
        · apply handHeld_set _ ho hw
          by_cases hh : w.Hand = "off"
          · exact Or.inr (Or.inr (fun hN => c2 ⟨hh, by rw [hN, hname]⟩))
          · exact Or.inr (Or.inl hh)

theorem keyToggle_sampleInv (m : Model TI)
    (hinv : SampleInv m.character.Equipped m.equipment m.weapons) :
    SampleInv (keyToggle m).character.Equipped (keyToggle m).equipment
      (keyToggle m).weapons := by
  unfold keyToggle
  split_ifs
  · split
    · next it hit => exact toggleItem_sampleInv m _ it hinv hit
    · exact hinv
  · split
    · next w hw => exact toggleWeapon_sampleInv m _ w hinv hw
    · exact hinv
  · exact hinv
  · exact hinv

theorem keyAdd_sampleInv (x : Ext TI) (m : Model TI)
    (hinv : SampleInv m.character.Equipped m.equipment m.weapons) :
    SampleInv (keyAdd x m).character.Equipped (keyAdd x m).equipment
      (keyAdd x m).weapons := by
  obtain ⟨hb, h1, h2, h3, h4, h5, h6, h7, hn, hm, ho⟩ := hinv
  have items : ∀ it, it ∈ m.equipment ++ [sampleItem] → it.Slot = "back" := by
    intro it hit
    rcases List.mem_append.mp hit with h | h
    · exact hb it h
    · rw [List.mem_singleton.mp h]; rfl
  have names : ∀ w, w ∈ m.weapons ++ [sampleWeapon] → w.Name = "Longsword" := by
    intro w hw
    rcases List.mem_append.mp hw with h | h
    · exact hn w h
    · rw [List.mem_singleton.mp h]; rfl
  unfold keyAdd appendEquipment appendWeapons
  split_ifs <;>
    first
    | exact ⟨hb, h1, h2, h3, h4, h5, h6, h7, hn, hm, ho⟩
    | exact ⟨items, h1, h2, h3, h4, h5, h6, h7, hn, hm, ho⟩
    | exact ⟨hb, h1, h2, h3, h4, h5, h6, h7, names, handHeld_append _ hm,
        handHeld_append _ ho⟩

theorem sampleInv_step (x : Ext TI) (m m1 : Model TI) (msg : Msg)
    (h : Update x m msg = some m1)
    (hinv : SampleInv m.character.Equipped m.equipment m.weapons) :
    SampleInv m1.character.Equipped m1.equipment m1.weapons := by
  rcases Update_cases x m m1 msg h with h1 | h1 | h1 | h1 | h1
  · obtain ⟨he, hi, hw, _⟩ := keyAdvance_step m m1 h1
    rw [he, hi, hw]; exact hinv
  · obtain ⟨he, hi, hw, _⟩ := keyRetreat_step m m1 h1
    rw [he, hi, hw]; exact hinv
  · subst h1; exact keyAdd_sampleInv x m hinv
  · subst h1; exact keyToggle_sampleInv m hinv
  · obtain ⟨he, hi, hw, _⟩ := h1
    rw [he, hi, hw]; exact hinv

theorem sampleInv_initial (x : Ext TI) (srd : SRDData) :
    SampleInv (initialModel x srd).character.Equipped (initialModel x srd).equipment
      (initialModel x srd).weapons :=
  ⟨fun _ h => absurd h (List.not_mem_nil _), rfl, rfl, rfl, rfl, rfl, rfl, rfl,
    fun _ h => absurd h (List.not_mem_nil _), Or.inl rfl, Or.inl rfl⟩

theorem reachable_sampleInv (m : Model TI) (h : Reachable m) :
    SampleInv m.character.Equipped m.equipment m.weapons := by
  induction h with
  | init x srd => exact sampleInv_initial x srd
  | step x msg _ hstep ih => exact sampleInv_step x _ _ msg hstep ih

/-- C8 as stated fails: from program start, entering edit mode, walking to the
weapons tab, adding the sample weapon, selecting and equipping it (no commit)
reaches a state whose table holds "Longsword" in MainHand while the document's
own weapon list is still empty. -/
theorem table_ahead_of_document_counterexample :
    ∃ m : Model Unit,
      run demoExt (initialModel demoExt demoSRD) equipWithoutCommitKeys = some m ∧
      Reachable m ∧
      m.character.Equipped.MainHand.Name = "Longsword" ∧
      m.character.Weapons = [] ∧
      m.weapons = [{ sampleWeapon with Equipped := true, Hand := "main" }] ∧
      ¬ Backed m.character.Equipped m.character.Equipment m.character.Weapons :=
  ⟨_, rfl, reachable_of_run demoExt equipWithoutCommitKeys _ _
      (Reachable.init demoExt demoSRD) rfl, rfl, rfl, rfl, by decide⟩

/-- C8 (amended): in every state reachable from the initial model, every
non-empty entry of the table has a same-named entry with its flag set in the
working lists: an item entry in the model's equipment list, a weapon entry in
the model's weapons list. -/
theorem table_backed_by_working_lists (m : Model TI) (h : Reachable m) :
    Backed m.character.Equipped m.equipment m.weapons :=
  backed_of_sampleInv _ _ _ (reachable_sampleInv m h)

theorem table_backed_by_working_lists_witness :
    ∃ m : Model Unit,
      run demoExt (initialModel demoExt demoSRD) equipWithoutCommitKeys = some m ∧
      m.character.Equipped.MainHand.Name = "Longsword" ∧
      Backed m.character.Equipped m.equipment m.weapons :=
  ⟨_, rfl, rfl, table_backed_by_working_lists _
    (reachable_of_run demoExt equipWithoutCommitKeys _ _ (Reachable.init demoExt demoSRD) rfl)⟩

/-! ### The add-sample scenario -/

theorem run_cons (x : Ext TI) (m m1 : Model TI) (msg : Msg) (rest : List Msg)
    (h : Update x m msg = some m1) : run x m (msg :: rest) = run x m1 rest := by
  simp [run, h]

theorem run_cursorWalkKeys (x : Ext TI) (srd : SRDData) :
    run x (initialModel x srd) cursorWalkKeys =
      some (backpackModel x srd false "Added backpack to equipment") := by
  have h1 : Update x (initialModel x srd) (Msg.key "e") = some (walkedModel x srd 0) := rfl
  have h2 : Update x (walkedModel x srd 0) (Msg.key "right") = some (walkedModel x srd 1) := rfl
  have h3 : Update x (walkedModel x srd 1) (Msg.key "right") = some (walkedModel x srd 2) := rfl
  have h4 : Update x (walkedModel x srd 2) (Msg.key "right") = some (walkedModel x srd 3) := rfl
  have h5 : run x (walkedModel x srd 3) [Msg.key "a", Msg.key "right"] =
      some (backpackModel x srd false "Added backpack to equipment") := rfl
  show run x _ [Msg.key "e", Msg.key "right", Msg.key "right", Msg.key "right",
    Msg.key "a", Msg.key "right"] = _
  rw [run_cons x _ _ _ _ h1, run_cons x _ _ _ _ h2, run_cons x _ _ _ _ h3,
    run_cons x _ _ _ _ h4]
  exact h5

/-- C11 as stated fails: from program start, after entering edit mode, walking
to the equipment tab, adding the sample item and moving the cursor to index 0,
the toggle sets the item's flag, but the head slot stays empty: its name is the
empty string, not the sample item's name. -/
theorem sample_item_head_counterexample :
    ∃ m0 m1 : Model Unit,
      run demoExt (initialModel demoExt demoSRD) cursorWalkKeys = some m0 ∧
      m0.mode = "edit" ∧ m0.activeTab = 3 ∧ m0.selectedItem = 0 ∧
      m0.equipment = [sampleItem] ∧
      Update demoExt m0 (Msg.key " ") = some m1 ∧
      m1.equipment[0]? = some { sampleItem with Equipped := true } ∧
      m1.character.Equipped.Head.Name = "" ∧
      m1.character.Equipped.Head.Name ≠ sampleItem.Name :=
  ⟨_, _, rfl, rfl, rfl, rfl, rfl, rfl, rfl, rfl, by decide⟩

/-- C11 (amended): from the initial model (empty inventory), after entering edit
mode, navigating to the equipment tab, performing the add-sample action and
moving the inventory cursor to index 0, toggling equip sets the sample item's
flag and leaves the whole table (the head slot included) empty, the sample
item's slot category being "back"; toggling again clears the flag and the table
is still empty. -/
theorem sample_item_toggle_scenario (x : Ext TI) (srd : SRDData) :
    ∃ m0 m1 m2 : Model TI,
      run x (initialModel x srd) cursorWalkKeys = some m0 ∧
      m0.mode = "edit" ∧ m0.activeTab = 3 ∧ m0.selectedItem = 0 ∧
      m0.equipment = [sampleItem] ∧ m0.character.Equipped = Equipped.zero ∧
      Update x m0 (Msg.key " ") = some m1 ∧
      m1.equipment = [{ sampleItem with Equipped := true }] ∧
      m1.character.Equipped = Equipped.zero ∧
      Update x m1 (Msg.key " ") = some m2 ∧
      m2.equipment = [sampleItem] ∧
      m2.character.Equipped = Equipped.zero :=
  ⟨backpackModel x srd false "Added backpack to equipment",
    backpackModel x srd true "Backpack equipped",
    backpackModel x srd false "Backpack unequipped",
    run_cursorWalkKeys x srd, rfl, rfl, rfl, rfl, rfl, rfl, rfl, rfl, rfl, rfl, rfl⟩

/-! ### When the toggle key does nothing -/

/-- C12: the toggle key returns the model unchanged in every field whenever the
mode is not edit (in particular view), or the active tab is neither 3 nor 4, or
the active tab is 3 and the inventory cursor is negative (in particular -1) or
at least the inventory length, or the active tab is 4 and the weapon cursor is
negative or at least the weapon-list length. -/
theorem toggle_ineffective_outside_guard (x : Ext TI) (m : Model TI)
    (h : m.mode ≠ "edit" ∨ (m.activeTab ≠ 3 ∧ m.activeTab ≠ 4) ∨
      (m.activeTab = 3 ∧ (m.selectedItem < 0 ∨ m.selectedItem ≥ m.equipment.length)) ∨
      (m.activeTab = 4 ∧ (m.selectedWeapon < 0 ∨ m.selectedWeapon ≥ m.weapons.length))) :
    Update x m (Msg.key " ") = some m := by
  rw [Update_space]
  congr 1
  unfold keyToggle
  rcases h with h | ⟨h3, h4⟩ | ⟨h3, hs⟩ | ⟨h4, hs⟩
  · rw [if_neg h]
  · split_ifs with _ c1 c2
    · exact absurd c1.1 h3
    · exact absurd c2.1 h4
    · rfl
    · rfl
  · have h4 : m.activeTab ≠ 4 := by rw [h3]; decide
    split_ifs with _ c1 c2
    · exfalso; rcases hs with hs | hs <;> omega
    · exact absurd c2.1 h4
    · rfl
    · rfl
  · have h3 : m.activeTab ≠ 3 := by rw [h4]; decide
    split_ifs with _ c1 c2
    · exact absurd c1.1 h3
    · exfalso; rcases hs with hs | hs <;> omega
    · rfl
    · rfl

theorem toggle_ineffective_outside_guard_witness :
    Update demoExt demoModel (Msg.key " ") = some demoModel ∧
    Update demoExt { headModel with mode := "view" } (Msg.key " ") =
      some { headModel with mode := "view" } :=
  ⟨toggle_ineffective_outside_guard demoExt demoModel
      (Or.inr (Or.inr (Or.inl ⟨rfl, Or.inl (by decide)⟩))),
    toggle_ineffective_outside_guard demoExt { headModel with mode := "view" }
      (Or.inl (by decide))⟩

/-! ### Lengths of the working lists -/

theorem keyAdd_lengths (x : Ext TI) (m : Model TI) :
    m.equipment.length ≤ (keyAdd x m).equipment.length ∧
    m.weapons.length ≤ (keyAdd x m).weapons.length := by
  unfold keyAdd appendEquipment appendWeapons
  split_ifs <;> simp

theorem keyToggle_lengths (m : Model TI) :
    (keyToggle m).equipment.length = m.equipment.length ∧
    (keyToggle m).weapons.length = m.weapons.length := by
  unfold keyToggle
  split_ifs
  · split
    · simp [toggleItem]
    · exact ⟨rfl, rfl⟩
  · split
    · simp [toggleWeapon]
    · exact ⟨rfl, rfl⟩
  · exact ⟨rfl, rfl⟩
  · exact ⟨rfl, rfl⟩

/-- The working lists never shrink. -/
theorem Update_lengths (x : Ext TI) (m m1 : Model TI) (msg : Msg)
    (h : Update x m msg = some m1) :
    m.equipment.length ≤ m1.equipment.length ∧ m.weapons.length ≤ m1.weapons.length := by
  rcases Update_cases x m m1 msg h with h1 | h1 | h1 | h1 | h1
  · obtain ⟨_, he, hw, _⟩ := keyAdvance_step m m1 h1
    rw [he, hw]; exact ⟨le_refl _, le_refl _⟩
  · obtain ⟨_, he, hw, _⟩ := keyRetreat_step m m1 h1
    rw [he, hw]; exact ⟨le_refl _, le_refl _⟩
  · subst h1; exact keyAdd_lengths x m
  · subst h1
    obtain ⟨he, hw⟩ := keyToggle_lengths m
    rw [he, hw]; exact ⟨le_refl _, le_refl _⟩
  · obtain ⟨_, he, hw, _⟩ := h1
    rw [he, hw]; exact ⟨le_refl _, le_refl _⟩

/-! ### The weapons tab -/

theorem length_pos_cast {α : Type} (l : List α) (h : l ≠ []) : (l.length : Int) > 0 := by
  have : 0 < l.length := List.length_pos.mpr h
  exact_mod_cast this

theorem keyAdvance_weapons_tab (m : Model TI) (htab : m.activeTab = 4) (hw : m.weapons ≠ []) :
    ∃ c, keyAdvance m = some { m with selectedWeapon := c } := by
  unfold keyAdvance
  have h3 : ¬ (m.activeTab = 3 ∧ m.equipMode = "inventory" ∧ m.equipment.length > 0) := by
    rw [htab]; intro h; exact absurd h.1 (by decide)
  rw [if_neg h3, if_pos ⟨htab, List.length_pos.mpr hw⟩,
    goRem_isSome _ _ (length_cast_ne_zero _ hw)]
  exact ⟨_, rfl⟩

theorem keyRetreat_weapons_tab (m : Model TI) (htab : m.activeTab = 4) (hw : m.weapons ≠ []) :
    ∃ c, keyRetreat m = some { m with selectedWeapon := c } := by
  unfold keyRetreat
  have h3 : ¬ (m.activeTab = 3 ∧ m.equipMode = "inventory" ∧ m.equipment.length > 0) := by
    rw [htab]; intro h; exact absurd h.1 (by decide)
  rw [if_neg h3, if_pos ⟨htab, List.length_pos.mpr hw⟩,
    goRem_isSome _ _ (length_cast_ne_zero _ hw)]
  exact ⟨_, rfl⟩

theorem updateInputs_weapons_tab (x : Ext TI) (m : Model TI) (msg : Msg)
    (htab : m.activeTab = 4) : updateInputs x m msg = some m := by
  unfold updateInputs
  have : tabKeys m.activeTab = [] := by rw [htab]; rfl
  rw [this]

/-- A step that does not panic unless navigation or the text inputs do. -/
theorem Update_none_cases (x : Ext TI) (m : Model TI) (msg : Msg)
    (h : Update x m msg = none) :
    keyAdvance m = none ∨ keyRetreat m = none ∨ updateInputs x m msg = none := by
  cases msg with
  | other => exact Or.inr (Or.inr h)
  | key s =>
    unfold Update at h
    simp only at h
    by_cases c1 : s = "ctrl+c" ∨ s = "q"
    · rw [if_pos c1] at h; cases h
    rw [if_neg c1] at h
    by_cases c2 : s = "right" ∨ s = "l" ∨ s = "n" ∨ s = "tab"
    · rw [if_pos c2] at h; exact Or.inl h
    rw [if_neg c2] at h
    by_cases c3 : s = "left" ∨ s = "h" ∨ s = "p" ∨ s = "shift+tab"
    · rw [if_pos c3] at h; exact Or.inr (Or.inl h)
    rw [if_neg c3] at h
    by_cases c4 : s = "e"
    · rw [if_pos c4] at h; cases h
    rw [if_neg c4] at h
    by_cases c5 : s = "v"
    · rw [if_pos c5] at h; cases h
    rw [if_neg c5] at h
    by_cases c6 : s = "s"
    · rw [if_pos c6] at h; cases h
    rw [if_neg c6] at h
    by_cases c7 : s = "a"
    · rw [if_pos c7] at h; cases h
    rw [if_neg c7] at h
    by_cases c8 : s = "enter"
    · rw [if_pos c8] at h
      by_cases c9 : m.mode = "edit"
      · rw [if_pos c9] at h; cases h
      · rw [if_neg c9] at h; exact Or.inr (Or.inr h)
    rw [if_neg c8] at h
    by_cases c10 : s = " "
    · rw [if_pos c10] at h; cases h
    rw [if_neg c10] at h
    by_cases c11 : s = "i"
    · rw [if_pos c11] at h; cases h
    rw [if_neg c11] at h
    by_cases c12 : s = "w"
    · rw [if_pos c12] at h; cases h
    rw [if_neg c12] at h
    exact Or.inr (Or.inr h)

theorem weapons_tab_step (x : Ext TI) (m : Model TI) (msg : Msg)
    (htab : m.activeTab = 4) (hw : m.weapons ≠ []) :
    ∃ m1, Update x m msg = some m1 ∧ m1.activeTab = 4 ∧ m1.weapons ≠ [] := by
  cases hu : Update x m msg with
  | none =>
    exfalso
    rcases Update_none_cases x m msg hu with h | h | h
    · obtain ⟨c, hc⟩ := keyAdvance_weapons_tab m htab hw
      rw [hc] at h; cases h
    · obtain ⟨c, hc⟩ := keyRetreat_weapons_tab m htab hw
      rw [hc] at h; cases h
    · rw [updateInputs_weapons_tab x m msg htab] at h; cases h
  | some m1 =>
    refine ⟨m1, rfl, ?_⟩
    have hpos : 0 < m.weapons.length := List.length_pos.mpr hw
    have hlen := (Update_lengths x m m1 msg hu).2
    have hne : m1.weapons ≠ [] := List.length_pos.mp (lt_of_lt_of_le hpos hlen)
    refine ⟨?_, hne⟩
    rcases Update_cases x m m1 msg hu with h1 | h1 | h1 | h1 | h1
    · obtain ⟨c, hc⟩ := keyAdvance_weapons_tab m htab hw
      rw [hc] at h1; cases h1; exact htab
    · obtain ⟨c, hc⟩ := keyRetreat_weapons_tab m htab hw
      rw [hc] at h1; cases h1; exact htab
    · subst h1; rw [(keyAdd_cursorFrame x m).1]; exact htab
    · subst h1; rw [(keyToggle_cursorFrame m).1]; exact htab
    · rw [h1.2.2.2.1]; exact htab

/-- C14: from a model on the weapons tab (index 4) with a non-empty weapon list,
every message returns a model that is again on tab 4 with a non-empty weapon
list; hence every sequence of messages runs to the end without panic and ends
on tab 4. -/
theorem weapons_tab_never_left (x : Ext TI) (m : Model TI)
    (htab : m.activeTab = 4) (hw : m.weapons.length > 0) :
    (∀ msg : Msg, ∃ m1, Update x m msg = some m1 ∧ m1.activeTab = 4 ∧
      m1.weapons.length > 0) ∧
    (∀ msgs : List Msg, ∃ m1, run x m msgs = some m1 ∧ m1.activeTab = 4 ∧
      m1.weapons.length > 0) := by
  have step : ∀ (a : Model TI) (msg : Msg), a.activeTab = 4 → a.weapons.length > 0 →
      ∃ a1, Update x a msg = some a1 ∧ a1.activeTab = 4 ∧ a1.weapons.length > 0 := by
    intro a msg ha hl
    obtain ⟨a1, hu, ht, hn⟩ := weapons_tab_step x a msg ha (List.length_pos.mp hl)
    exact ⟨a1, hu, ht, List.length_pos.mpr hn⟩
  refine ⟨fun msg => step m msg htab hw, ?_⟩
  intro msgs
  induction msgs generalizing m with
  | nil => exact ⟨m, rfl, htab, hw⟩
  | cons msg rest ih =>
    obtain ⟨a1, hu, ht, hl⟩ := step m msg htab hw
    obtain ⟨m1, hr, ht1, hl1⟩ := ih a1 ht hl
    exact ⟨m1, by simp [run, hu, hr], ht1, hl1⟩

theorem weapons_tab_never_left_witness :
    ∃ m1, run demoExt armoryModel
        (keys ["right", "left", "tab", "shift+tab", "e", "v", "a", "enter", " ", "i", "w",
          "x", "q"]) = some m1 ∧
      m1.activeTab = 4 ∧ m1.weapons.length > 0 :=
  (weapons_tab_never_left demoExt armoryModel rfl (by decide)).2 _

/-! ### Cursors stay in range -/

theorem advance_in_range (n : Nat) (c : Int) (hpos : 0 < n) (hfit : n < 2 ^ 62)
    (hlo : -1 ≤ c) (hhi : c < n) :
    ∃ r, goRem (wrapInt (c + 1)) n = some r ∧ 0 ≤ r ∧ r < n := by
  have hfit2 : (n : Int) < 2 ^ 62 := by exact_mod_cast hfit
  have hn0 : (n : Int) ≠ 0 := by omega
  rw [goRem_isSome _ _ hn0, wrapInt_of_range _ (by omega) (by omega),
    Int.tmod_eq_emod (by omega) (by omega)]
  exact ⟨_, rfl, Int.emod_nonneg _ hn0, Int.emod_lt_of_pos _ (by omega)⟩

theorem retreat_in_range (n : Nat) (c : Int) (hpos : 0 < n) (hfit : n < 2 ^ 62)
    (hlo : -1 ≤ c) (hhi : c < n) :
    ∃ r, goRem (wrapInt (wrapInt (c - 1) + n)) n = some r ∧ 0 ≤ r ∧ r < n := by
  have hfit2 : (n : Int) < 2 ^ 62 := by exact_mod_cast hfit
  have hn0 : (n : Int) ≠ 0 := by omega
  rw [goRem_isSome _ _ hn0, wrapInt_of_range (c - 1) (by omega) (by omega),
    wrapInt_of_range _ (by omega) (by omega)]
  by_cases hv : 0 ≤ c - 1 + (n : Int)
  · rw [Int.tmod_eq_emod hv (by omega)]
    exact ⟨_, rfl, Int.emod_nonneg _ hn0, Int.emod_lt_of_pos _ (by omega)⟩
  · have hn1 : n = 1 := by omega
    have hc : c = -1 := by omega
    subst hn1 hc
    exact ⟨_, rfl, by decide, by decide⟩

theorem cursorOk_mono {c : Int} {n k : Nat} (h : CursorOk c n) (hle : n ≤ k) :
    CursorOk c k := by
  rcases h with h | ⟨h0, h1⟩
  · exact Or.inl h
  · exact Or.inr ⟨h0, by omega⟩

theorem cursorOk_bounds {c : Int} {n : Nat} (h : CursorOk c n) : -1 ≤ c ∧ (n = 0 → c = -1) ∧
    (0 < n → c < n) := by
  rcases h with h | ⟨h0, h1⟩
  · subst h; exact ⟨by decide, fun _ => rfl, fun hp => by omega⟩
  · exact ⟨by omega, fun hn => by omega, fun _ => h1⟩

theorem keyAdvance_cursorsOk (m m1 : Model TI) (h : keyAdvance m = some m1)
    (he : m.equipment.length < 2 ^ 62) (hw : m.weapons.length < 2 ^ 62)
    (hok : CursorsOk m) : CursorsOk m1 := by
  unfold keyAdvance at h
  split_ifs at h with h1 h2
  · obtain ⟨hlo, _, hhi⟩ := cursorOk_bounds hok.1
    obtain ⟨r, hr, hr0, hr1⟩ := advance_in_range _ _ h1.2.2 he hlo (hhi h1.2.2)
    rw [hr] at h; cases h
    exact ⟨Or.inr ⟨hr0, hr1⟩, hok.2⟩
  · obtain ⟨hlo, _, hhi⟩ := cursorOk_bounds hok.2
    obtain ⟨r, hr, hr0, hr1⟩ := advance_in_range _ _ h2.2 hw hlo (hhi h2.2)
    rw [hr] at h; cases h
    exact ⟨hok.1, Or.inr ⟨hr0, hr1⟩⟩
  · obtain ⟨_, rfl⟩ := goRem_map_some _ _ _ _ h
    exact ⟨Or.inl rfl, Or.inl rfl⟩

theorem keyRetreat_cursorsOk (m m1 : Model TI) (h : keyRetreat m = some m1)
    (he : m.equipment.length < 2 ^ 62) (hw : m.weapons.length < 2 ^ 62)
    (hok : CursorsOk m) : CursorsOk m1 := by
  unfold keyRetreat at h
  split_ifs at h with h1 h2
  · obtain ⟨hlo, _, hhi⟩ := cursorOk_bounds hok.1
    obtain ⟨r, hr, hr0, hr1⟩ := retreat_in_range _ _ h1.2.2 he hlo (hhi h1.2.2)
    rw [hr] at h; cases h
    exact ⟨Or.inr ⟨hr0, hr1⟩, hok.2⟩
  · obtain ⟨hlo, _, hhi⟩ := cursorOk_bounds hok.2
    obtain ⟨r, hr, hr0, hr1⟩ := retreat_in_range _ _ h2.2 hw hlo (hhi h2.2)
    rw [hr] at h; cases h
    exact ⟨hok.1, Or.inr ⟨hr0, hr1⟩⟩
  · obtain ⟨_, rfl⟩ := goRem_map_some _ _ _ _ h
    exact ⟨Or.inl rfl, Or.inl rfl⟩

theorem cursorsOk_step (x : Ext TI) (m m1 : Model TI) (msg : Msg)
    (h : Update x m msg = some m1)
    (he : m.equipment.length < 2 ^ 62) (hw : m.weapons.length < 2 ^ 62)
    (hok : CursorsOk m) : CursorsOk m1 := by
  rcases Update_cases x m m1 msg h with h1 | h1 | h1 | h1 | h1
  · exact keyAdvance_cursorsOk m m1 h1 he hw hok
  · exact keyRetreat_cursorsOk m m1 h1 he hw hok
  · subst h1
    obtain ⟨_, hs, hsw, _⟩ := keyAdd_cursorFrame x m
    obtain ⟨le, lw⟩ := keyAdd_lengths x m
    unfold CursorsOk
    rw [hs, hsw]
    exact ⟨cursorOk_mono hok.1 le, cursorOk_mono hok.2 lw⟩
  · subst h1
    obtain ⟨_, hs, hsw, _⟩ := keyToggle_cursorFrame m
    obtain ⟨le, lw⟩ := keyToggle_lengths m
    unfold CursorsOk
    rw [hs, hsw, le, lw]
    exact hok
  · obtain ⟨_, hle, hlw, _, hs, hsw, _⟩ := h1
    unfold CursorsOk
    rw [hs, hsw, hle, hlw]
    exact hok

theorem reachable_cursorsOk (m : Model TI) (h : Reachable m) :
    m.equipment.length < 2 ^ 62 → m.weapons.length < 2 ^ 62 → CursorsOk m := by
  induction h with
  | init x srd => intro _ _; exact ⟨Or.inl rfl, Or.inl rfl⟩
  | step x msg _ hstep ih =>
    intro he hw
    obtain ⟨le, lw⟩ := Update_lengths x _ _ msg hstep
    have he0 := lt_of_le_of_lt le he
    have hw0 := lt_of_le_of_lt lw hw
    exact cursorsOk_step x _ _ msg hstep he0 hw0 (ih he0 hw0)

/-- C13: in every state reachable from the initial model whose working lists
have lengths a Go slice of items or weapons can have (below 2^62), each cursor
is at least -1 and is below the length of its list, or is -1 with an empty list;
and for every such length n > 0 and every cursor c with -1 <= c < n the advance
computation (c + 1) % n and the retreat computation (c - 1 + n) % n, in 64-bit
arithmetic with the truncated remainder, return a value in [0, n), retreat from
c = -1 included. -/
theorem cursors_stay_in_range (m : Model TI) (h : Reachable m)
    (he : m.equipment.length < 2 ^ 62) (hw : m.weapons.length < 2 ^ 62) :
    (-1 ≤ m.selectedItem ∧ (m.selectedItem < m.equipment.length ∨
      (m.selectedItem = -1 ∧ m.equipment = []))) ∧
    (-1 ≤ m.selectedWeapon ∧ (m.selectedWeapon < m.weapons.length ∨
      (m.selectedWeapon = -1 ∧ m.weapons = []))) ∧
    ∀ (n : Nat) (c : Int), 0 < n → n < 2 ^ 62 → -1 ≤ c → c < n →
      (∃ r, goRem (wrapInt (c + 1)) n = some r ∧ 0 ≤ r ∧ r < n) ∧
      (∃ r, goRem (wrapInt (wrapInt (c - 1) + n)) n = some r ∧ 0 ≤ r ∧ r < n) := by
  obtain ⟨h1, h2⟩ := reachable_cursorsOk m h he hw
  have conv : ∀ {α : Type} (c : Int) (l : List α), CursorOk c l.length →
      -1 ≤ c ∧ (c < l.length ∨ (c = -1 ∧ l = [])) := by
    intro α c l hc
    obtain ⟨hlo, hz, hp⟩ := cursorOk_bounds hc
    refine ⟨hlo, ?_⟩
    rcases Nat.eq_zero_or_pos l.length with h0 | h0
    · exact Or.inr ⟨hz h0, List.length_eq_zero.mp h0⟩
    · exact Or.inl (hp h0)
  exact ⟨conv _ _ h1, conv _ _ h2, fun n c hpos hfit hlo hhi =>
    ⟨advance_in_range n c hpos hfit hlo hhi, retreat_in_range n c hpos hfit hlo hhi⟩⟩

theorem cursors_stay_in_range_witness :
    ∃ m : Model Unit,
      run demoExt (initialModel demoExt demoSRD) (cursorWalkKeys ++ keys ["left"]) = some m ∧
      m.equipment.length = 1 ∧ m.selectedItem = 0 ∧
      (-1 ≤ m.selectedItem ∧ (m.selectedItem < m.equipment.length ∨
        (m.selectedItem = -1 ∧ m.equipment = []))) :=
  ⟨_, rfl, rfl, rfl,
    (cursors_stay_in_range _
      (reachable_of_run demoExt (cursorWalkKeys ++ keys ["left"]) _ _
        (Reachable.init demoExt demoSRD) rfl) (by decide) (by decide)).1⟩

/-! ### The table is backed by flagged entries of the working lists -/

theorem hasAt_ne {α : Type} {l : List α} {i k : Nat} {P : α → Prop} {c : α}
    (h : HasAt l i P) (hc : l[k]? = some c) (hn : ¬ P c) : i ≠ k := by
  obtain ⟨a, ha, hp⟩ := h
  intro hik
  subst hik
  rw [hc] at ha
  cases ha
  exact hn hp

theorem hasAt_set_of_ne {α : Type} {l : List α} {i k : Nat} {P : α → Prop} (v : α)
    (h : HasAt l i P) (hik : i ≠ k) : HasAt (l.set k v) i P := by
  obtain ⟨a, ha, hp⟩ := h
  exact ⟨a, by rw [getElem?_set_other _ _ _ _ hik]; exact ha, hp⟩

theorem hasAt_set_of_not {α : Type} {l : List α} {i k : Nat} {P : α → Prop} {c : α} (v : α)
    (h : HasAt l i P) (hc : l[k]? = some c) (hn : ¬ P c) : HasAt (l.set k v) i P :=
  hasAt_set_of_ne v h (hasAt_ne h hc hn)

theorem hasAt_set_self {α : Type} {l : List α} {k : Nat} {P : α → Prop} {c v : α}
    (hc : l[k]? = some c) (hv : P v) : HasAt (l.set k v) k P :=
  ⟨v, getElem?_set_self_of_some _ _ _ _ hc, hv⟩

theorem hasAt_append {α : Type} {l : List α} {i : Nat} {P : α → Prop} (t : List α)
    (h : HasAt l i P) : HasAt (l ++ t) i P := by
  obtain ⟨a, ha, hp⟩ := h
  have hlt : i < l.length := lt_length_of_getElem? ha
  exact ⟨a, by rw [List.getElem?_append_left hlt]; exact ha, hp⟩

theorem hasAt_mem {α : Type} {l : List α} {i : Nat} {P : α → Prop} (h : HasAt l i P) :
    ∃ a, a ∈ l ∧ P a := by
  obtain ⟨a, ha, hp⟩ := h
  exact ⟨a, List.mem_iff_getElem?.mpr ⟨i, ha⟩, hp⟩

/-- A fixed-slot field survives a write to entry `k` whose old value was not its
witness. -/
theorem fixedInv_set {items : List Item} {field : Item} {slot : String} {k : Nat}
    {c : Item} (v : Item) (h : FixedInv items field slot) (hc : items[k]? = some c)
    (hn : c.Equipped = false ∨ c.Slot ≠ slot ∨ c.Name ≠ field.Name) :
    FixedInv (items.set k v) field slot := by
  intro hne
  obtain ⟨i, hi⟩ := h hne
  refine ⟨i, hasAt_set_of_not v hi hc ?_⟩
  rintro ⟨h1, h2, h3⟩
  rcases hn with hn | hn | hn
  · rw [h2] at hn; cases hn
  · exact hn h3
  · exact hn h1

theorem fixedInv_new {items : List Item} {slot : String} {k : Nat} {c : Item} (v : Item)
    (hc : items[k]? = some c) (hf : v.Equipped = true) (hs : v.Slot = slot) :
    FixedInv (items.set k v) v slot :=
  fun _ => ⟨k, hasAt_set_self hc ⟨rfl, hf, hs⟩⟩

theorem fixedInv_zero (items : List Item) (slot : String) :
    FixedInv items Item.zero slot :=
  fun h => absurd rfl h

theorem fixedInv_append {items : List Item} {field : Item} {slot : String} (t : List Item)
    (h : FixedInv items field slot) : FixedInv (items ++ t) field slot :=
  fun hne => (h hne).imp fun _ hi => hasAt_append t hi

theorem ringInv_set {items : List Item} {r1 r2 : Item} {k : Nat} {c : Item} (v : Item)
    (h : RingInv items r1 r2) (hc : items[k]? = some c)
    (hn : c.Equipped = false ∨ c.Slot ≠ "ring" ∨ (c.Name ≠ r1.Name ∧ c.Name ≠ r2.Name)) :
    RingInv (items.set k v) r1 r2 := by
  have not1 : ¬ IsWorn r1.Name "ring" c := by
    rintro ⟨h1, h2, h3⟩
    rcases hn with hn | hn | hn
    · rw [h2] at hn; cases hn
    · exact hn h3
    · exact hn.1 h1
  have not2 : ¬ IsWorn r2.Name "ring" c := by
    rintro ⟨h1, h2, h3⟩
    rcases hn with hn | hn | hn
    · rw [h2] at hn; cases hn
    · exact hn h3
    · exact hn.2 h1
  obtain ⟨a1, a2, a3⟩ := h
  refine ⟨fun hne => ?_, fun hne => ?_, fun hne heq => ?_⟩
  · obtain ⟨i, hi⟩ := a1 hne
    exact ⟨i, hasAt_set_of_not v hi hc not1⟩
  · obtain ⟨i, hi⟩ := a2 hne
    exact ⟨i, hasAt_set_of_not v hi hc not2⟩
  · obtain ⟨i, j, hij, hi, hj⟩ := a3 hne heq
    exact ⟨i, j, hij, hasAt_set_of_not v hi hc not1, hasAt_set_of_not v hj hc not1⟩

/-- A ring lands in Ring1 (the entry written at `k` was unflagged before). -/
theorem ringInv_equip1 {items : List Item} {r1 r2 : Item} {k : Nat} {c : Item} (v : Item)
    (h : RingInv items r1 r2) (hc : items[k]? = some c) (hcf : c.Equipped = false)
    (hf : v.Equipped = true) (hs : v.Slot = "ring") :
    RingInv (items.set k v) v r2 := by
  have notc : ∀ n, ¬ IsWorn n "ring" c := by
    rintro n ⟨_, h2, _⟩; rw [h2] at hcf; cases hcf
  obtain ⟨_, a2, _⟩ := h
  refine ⟨fun _ => ⟨k, hasAt_set_self hc ⟨rfl, hf, hs⟩⟩, fun hne => ?_, fun _ heq => ?_⟩
  · obtain ⟨i, hi⟩ := a2 hne
    exact ⟨i, hasAt_set_of_not v hi hc (notc _)⟩
  · have hne2 : r2.Name ≠ "" := by rw [← heq]; assumption
    obtain ⟨i, hi⟩ := a2 hne2
    have hik : i ≠ k := hasAt_ne hi hc (notc _)
    refine ⟨k, i, Ne.symm hik, hasAt_set_self hc ⟨rfl, hf, hs⟩, ?_⟩
    rw [heq]
    exact hasAt_set_of_ne v hi hik

/-- A ring lands in Ring2. -/
theorem ringInv_equip2 {items : List Item} {r1 r2 : Item} {k : Nat} {c : Item} (v : Item)
    (h : RingInv items r1 r2) (hc : items[k]? = some c) (hcf : c.Equipped = false)
    (hf : v.Equipped = true) (hs : v.Slot = "ring") :
    RingInv (items.set k v) r1 v := by
  have notc : ∀ n, ¬ IsWorn n "ring" c := by
    rintro n ⟨_, h2, _⟩; rw [h2] at hcf; cases hcf
  obtain ⟨a1, _, _⟩ := h
  refine ⟨fun hne => ?_, fun _ => ⟨k, hasAt_set_self hc ⟨rfl, hf, hs⟩⟩, fun hne heq => ?_⟩
  · obtain ⟨i, hi⟩ := a1 hne
    exact ⟨i, hasAt_set_of_not v hi hc (notc _)⟩
  · obtain ⟨i, hi⟩ := a1 hne
    have hik : i ≠ k := hasAt_ne hi hc (notc _)
    exact ⟨i, k, hik, hasAt_set_of_ne v hi hik, hasAt_set_self hc ⟨heq.symm, hf, hs⟩⟩

/-- Ring1 is cleared because its occupant has the name of the entry at `k`. -/
theorem ringInv_unequip1 {items : List Item} {r1 r2 : Item} {k : Nat} {c : Item} (v : Item)
    (h : RingInv items r1 r2) (hc : items[k]? = some c) (hname : r1.Name = c.Name) :
    RingInv (items.set k v) Item.zero r2 := by
  obtain ⟨_, a2, a3⟩ := h
  refine ⟨fun hne => absurd rfl hne, fun hne => ?_, fun hne => absurd rfl hne⟩
  by_cases heq : r1.Name = r2.Name
  · have hne1 : r1.Name ≠ "" := by rw [heq]; exact hne
    obtain ⟨i, j, hij, hi, hj⟩ := a3 hne1 heq
    rw [heq] at hi hj
    by_cases hik : i = k
    · exact ⟨j, hasAt_set_of_ne v hj (by rw [← hik]; exact Ne.symm hij)⟩
    · exact ⟨i, hasAt_set_of_ne v hi hik⟩
  · obtain ⟨i, hi⟩ := a2 hne
    refine ⟨i, hasAt_set_of_not v hi hc ?_⟩
    rintro ⟨h1, _, _⟩
    exact heq (by rw [hname, h1])

/-- Ring2 is cleared; Ring1's occupant has another name than the entry at `k`. -/
theorem ringInv_unequip2 {items : List Item} {r1 r2 : Item} {k : Nat} {c : Item} (v : Item)
    (h : RingInv items r1 r2) (hc : items[k]? = some c) (hname : r1.Name ≠ c.Name) :
    RingInv (items.set k v) r1 Item.zero := by
  obtain ⟨a1, _, _⟩ := h
  refine ⟨fun hne => ?_, fun hne => absurd rfl hne, fun hne heq => ?_⟩
  · obtain ⟨i, hi⟩ := a1 hne
    refine ⟨i, hasAt_set_of_not v hi hc ?_⟩
    rintro ⟨h1, _, _⟩
    exact hname h1.symm
  · exact absurd heq hne

theorem ringInv_append {items : List Item} {r1 r2 : Item} (t : List Item)
    (h : RingInv items r1 r2) : RingInv (items ++ t) r1 r2 := by
  obtain ⟨a1, a2, a3⟩ := h
  refine ⟨fun hne => (a1 hne).imp fun _ hi => hasAt_append t hi,
    fun hne => (a2 hne).imp fun _ hi => hasAt_append t hi, fun hne heq => ?_⟩
  obtain ⟨i, j, hij, hi, hj⟩ := a3 hne heq
  exact ⟨i, j, hij, hasAt_append t hi, hasAt_append t hj⟩

theorem toggleItem_fullInv (m : Model TI) (k : Nat) (c : Item)
    (hc : m.equipment[k]? = some c)
    (hinv : FullInv m.character.Equipped m.equipment m.weapons) :
    FullInv (toggleItem m k c).character.Equipped (toggleItem m k c).equipment
      (toggleItem m k c).weapons := by
  obtain ⟨hH, hB, hHa, hF, hN, hR, hM, hO⟩ := hinv
  have hW : (toggleItem m k c).weapons = m.weapons := rfl
  rw [hW]
  have kH : c.Equipped = false ∨ c.Slot ≠ "head" → ∀ v : Item,
      FixedInv (m.equipment.set k v) m.character.Equipped.Head "head" :=
    fun h v => fixedInv_set v hH hc (h.imp_right Or.inl)
  have kB : c.Equipped = false ∨ c.Slot ≠ "body" → ∀ v : Item,
      FixedInv (m.equipment.set k v) m.character.Equipped.Body "body" :=
    fun h v => fixedInv_set v hB hc (h.imp_right Or.inl)
  have kHa : c.Equipped = false ∨ c.Slot ≠ "hands" → ∀ v : Item,
      FixedInv (m.equipment.set k v) m.character.Equipped.Hands "hands" :=
    fun h v => fixedInv_set v hHa hc (h.imp_right Or.inl)
  have kF : c.Equipped = false ∨ c.Slot ≠ "feet" → ∀ v : Item,
      FixedInv (m.equipment.set k v) m.character.Equipped.Feet "feet" :=
    fun h v => fixedInv_set v hF hc (h.imp_right Or.inl)
  have kN : c.Equipped = false ∨ c.Slot ≠ "neck" → ∀ v : Item,
      FixedInv (m.equipment.set k v) m.character.Equipped.Neck "neck" :=
    fun h v => fixedInv_set v hN hc (h.imp_right Or.inl)
  have kR : c.Equipped = false ∨ c.Slot ≠ "ring" → ∀ v : Item,
      RingInv (m.equipment.set k v) m.character.Equipped.Ring1 m.character.Equipped.Ring2 :=
    fun h v => ringInv_set v hR hc (h.imp_right Or.inl)
  cases hf : c.Equipped
  · -- equip: the entry at k was unflagged, so every old witness survives
    have u : ∀ s : String, c.Equipped = false ∨ c.Slot ≠ s := fun _ => Or.inl hf
    by_cases s1 : c.Slot = "head"
    · have hE : (toggleItem m k c).character.Equipped =
          { m.character.Equipped with Head := { c with Equipped := true } } := by
        simp [toggleItem, equipItem, hf, s1]
      have hL : (toggleItem m k c).equipment =
          m.equipment.set k { c with Equipped := true } := by
        simp [toggleItem, equipItem, hf, s1]
      rw [hE, hL]
      exact ⟨fixedInv_new _ hc rfl s1, kB (u _) _, kHa (u _) _, kF (u _) _, kN (u _) _, kR (u _) _,
        hM, hO⟩
    by_cases s2 : c.Slot = "body"
    · have hE : (toggleItem m k c).character.Equipped =
          { m.character.Equipped with Body := { c with Equipped := true } } := by
        simp [toggleItem, equipItem, hf, s2]
      have hL : (toggleItem m k c).equipment =
          m.equipment.set k { c with Equipped := true } := by
        simp [toggleItem, equipItem, hf, s2]
      rw [hE, hL]
      exact ⟨kH (u _) _, fixedInv_new _ hc rfl s2, kHa (u _) _, kF (u _) _, kN (u _) _, kR (u _) _,
        hM, hO⟩
    by_cases s3 : c.Slot = "hands"
    · have hE : (toggleItem m k c).character.Equipped =
          { m.character.Equipped with Hands := { c with Equipped := true } } := by
        simp [toggleItem, equipItem, hf, s3]
      have hL : (toggleItem m k c).equipment =
          m.equipment.set k { c with Equipped := true } := by
        simp [toggleItem, equipItem, hf, s3]
      rw [hE, hL]
      exact ⟨kH (u _) _, kB (u _) _, fixedInv_new _ hc rfl s3, kF (u _) _, kN (u _) _, kR (u _) _,
        hM, hO⟩
    by_cases s4 : c.Slot = "feet"
    · have hE : (toggleItem m k c).character.Equipped =
          { m.character.Equipped with Feet := { c with Equipped := true } } := by
        simp [toggleItem, equipItem, hf, s4]
      have hL : (toggleItem m k c).equipment =
          m.equipment.set k { c with Equipped := true } := by
        simp [toggleItem, equipItem, hf, s4]
      rw [hE, hL]
      exact ⟨kH (u _) _, kB (u _) _, kHa (u _) _, fixedInv_new _ hc rfl s4, kN (u _) _, kR (u _) _,
        hM, hO⟩
    by_cases s5 : c.Slot = "ring"
    · by_cases r1 : m.character.Equipped.Ring1.Name = ""
      · have hE : (toggleItem m k c).character.Equipped =
            { m.character.Equipped with Ring1 := { c with Equipped := true } } := by
          simp [toggleItem, equipItem, hf, s5, r1]
        have hL : (toggleItem m k c).equipment =
            m.equipment.set k { c with Equipped := true } := by
          simp [toggleItem, equipItem, hf, s5, r1]
        rw [hE, hL]
        exact ⟨kH (u _) _, kB (u _) _, kHa (u _) _, kF (u _) _, kN (u _) _,
          ringInv_equip1 _ hR hc hf rfl s5, hM, hO⟩
      · by_cases r2 : m.character.Equipped.Ring2.Name = ""
        · have hE : (toggleItem m k c).character.Equipped =
              { m.character.Equipped with Ring2 := { c with Equipped := true } } := by
            simp [toggleItem, equipItem, hf, s5, r1, r2]
          have hL : (toggleItem m k c).equipment =
              m.equipment.set k { c with Equipped := true } := by
            simp [toggleItem, equipItem, hf, s5, r1, r2]
          rw [hE, hL]
          exact ⟨kH (u _) _, kB (u _) _, kHa (u _) _, kF (u _) _, kN (u _) _,
            ringInv_equip2 _ hR hc hf rfl s5, hM, hO⟩
        · have hE : (toggleItem m k c).character.Equipped = m.character.Equipped := by
            simp [toggleItem, equipItem, hf, s5, r1, r2]
          have hL : (toggleItem m k c).equipment =
              m.equipment.set k { c with Equipped := false } := by
            simp [toggleItem, equipItem, hf, s5, r1, r2]
          rw [hE, hL]
          exact ⟨kH (u _) _, kB (u _) _, kHa (u _) _, kF (u _) _, kN (u _) _, kR (u _) _, hM, hO⟩
    by_cases s6 : c.Slot = "neck"
    · have hE : (toggleItem m k c).character.Equipped =
          { m.character.Equipped with Neck := { c with Equipped := true } } := by
        simp [toggleItem, equipItem, hf, s6]
      have hL : (toggleItem m k c).equipment =
          m.equipment.set k { c with Equipped := true } := by
        simp [toggleItem, equipItem, hf, s6]
      rw [hE, hL]
      exact ⟨kH (u _) _, kB (u _) _, kHa (u _) _, kF (u _) _, fixedInv_new _ hc rfl s6, kR (u _) _,
        hM, hO⟩
    have hE : (toggleItem m k c).character.Equipped = m.character.Equipped := by
      simp [toggleItem, equipItem, hf, s1, s2, s3, s4, s5, s6]
    have hL : (toggleItem m k c).equipment =
        m.equipment.set k { c with Equipped := true } := by
      simp [toggleItem, equipItem, hf, s1, s2, s3, s4, s5, s6]
    rw [hE, hL]
    exact ⟨kH (u _) _, kB (u _) _, kHa (u _) _, kF (u _) _, kN (u _) _, kR (u _) _, hM, hO⟩
  · -- unequip: witnesses of another slot category survive, the own field is cleared on a name match
    have hL : (toggleItem m k c).equipment =
        m.equipment.set k { c with Equipped := false } := by
      simp [toggleItem, hf]
    rw [hL]
    by_cases s1 : c.Slot = "head"
    · by_cases hn : m.character.Equipped.Head.Name = c.Name
      · have hE : (toggleItem m k c).character.Equipped =
            { m.character.Equipped with Head := Item.zero } := by
          simp [toggleItem, unequipItem, hf, s1, hn]
        rw [hE]
        exact ⟨fixedInv_zero _ _, kB (Or.inr (by rw [s1]; decide)) _,
          kHa (Or.inr (by rw [s1]; decide)) _, kF (Or.inr (by rw [s1]; decide)) _,
          kN (Or.inr (by rw [s1]; decide)) _, kR (Or.inr (by rw [s1]; decide)) _, hM, hO⟩
      · have hE : (toggleItem m k c).character.Equipped = m.character.Equipped := by
          simp [toggleItem, unequipItem, hf, s1, hn]
        rw [hE]
        exact ⟨fixedInv_set _ hH hc (Or.inr (Or.inr (Ne.symm hn))),
          kB (Or.inr (by rw [s1]; decide)) _, kHa (Or.inr (by rw [s1]; decide)) _,
          kF (Or.inr (by rw [s1]; decide)) _, kN (Or.inr (by rw [s1]; decide)) _,
          kR (Or.inr (by rw [s1]; decide)) _, hM, hO⟩
    by_cases s2 : c.Slot = "body"
    · by_cases hn : m.character.Equipped.Body.Name = c.Name
      · have hE : (toggleItem m k c).character.Equipped =
            { m.character.Equipped with Body := Item.zero } := by
          simp [toggleItem, unequipItem, hf, s2, hn]
        rw [hE]
        exact ⟨kH (Or.inr (by rw [s2]; decide)) _, fixedInv_zero _ _,
          kHa (Or.inr (by rw [s2]; decide)) _, kF (Or.inr (by rw [s2]; decide)) _,
          kN (Or.inr (by rw [s2]; decide)) _, kR (Or.inr (by rw [s2]; decide)) _, hM, hO⟩
      · have hE : (toggleItem m k c).character.Equipped = m.character.Equipped := by
          simp [toggleItem, unequipItem, hf, s2, hn]
        rw [hE]
        exact ⟨kH (Or.inr (by rw [s2]; decide)) _,
          fixedInv_set _ hB hc (Or.inr (Or.inr (Ne.symm hn))), kHa (Or.inr (by rw [s2]; decide)) _,
          kF (Or.inr (by rw [s2]; decide)) _, kN (Or.inr (by rw [s2]; decide)) _,
          kR (Or.inr (by rw [s2]; decide)) _, hM, hO⟩
    by_cases s3 : c.Slot = "hands"
    · by_cases hn : m.character.Equipped.Hands.Name = c.Name
      · have hE : (toggleItem m k c).character.Equipped =
            { m.character.Equipped with Hands := Item.zero } := by
          simp [toggleItem, unequipItem, hf, s3, hn]
        rw [hE]
        exact ⟨kH (Or.inr (by rw [s3]; decide)) _, kB (Or.inr (by rw [s3]; decide)) _,
          fixedInv_zero _ _, kF (Or.inr (by rw [s3]; decide)) _,
          kN (Or.inr (by rw [s3]; decide)) _, kR (Or.inr (by rw [s3]; decide)) _, hM, hO⟩
      · have hE : (toggleItem m k c).character.Equipped = m.character.Equipped := by
          simp [toggleItem, unequipItem, hf, s3, hn]
        rw [hE]
        exact ⟨kH (Or.inr (by rw [s3]; decide)) _, kB (Or.inr (by rw [s3]; decide)) _,
          fixedInv_set _ hHa hc (Or.inr (Or.inr (Ne.symm hn))), kF (Or.inr (by rw [s3]; decide)) _,
          kN (Or.inr (by rw [s3]; decide)) _, kR (Or.inr (by rw [s3]; decide)) _, hM, hO⟩
    by_cases s4 : c.Slot = "feet"
    · by_cases hn : m.character.Equipped.Feet.Name = c.Name
      · have hE : (toggleItem m k c).character.Equipped =
            { m.character.Equipped with Feet := Item.zero } := by
          simp [toggleItem, unequipItem, hf, s4, hn]
        rw [hE]
        exact ⟨kH (Or.inr (by rw [s4]; decide)) _, kB (Or.inr (by rw [s4]; decide)) _,
          kHa (Or.inr (by rw [s4]; decide)) _, fixedInv_zero _ _,
          kN (Or.inr (by rw [s4]; decide)) _, kR (Or.inr (by rw [s4]; decide)) _, hM, hO⟩
      · have hE : (toggleItem m k c).character.Equipped = m.character.Equipped := by
          simp [toggleItem, unequipItem, hf, s4, hn]
        rw [hE]
        exact ⟨kH (Or.inr (by rw [s4]; decide)) _, kB (Or.inr (by rw [s4]; decide)) _,
          kHa (Or.inr (by rw [s4]; decide)) _, fixedInv_set _ hF hc (Or.inr (Or.inr (Ne.symm hn))),
          kN (Or.inr (by rw [s4]; decide)) _, kR (Or.inr (by rw [s4]; decide)) _, hM, hO⟩
    by_cases s5 : c.Slot = "ring"
    · by_cases r1 : m.character.Equipped.Ring1.Name = c.Name
      · have hE : (toggleItem m k c).character.Equipped =
            { m.character.Equipped with Ring1 := Item.zero } := by
          simp [toggleItem, unequipItem, hf, s5, r1]
        rw [hE]
        exact ⟨kH (Or.inr (by rw [s5]; decide)) _, kB (Or.inr (by rw [s5]; decide)) _,
          kHa (Or.inr (by rw [s5]; decide)) _, kF (Or.inr (by rw [s5]; decide)) _,
          kN (Or.inr (by rw [s5]; decide)) _, ringInv_unequip1 _ hR hc r1, hM, hO⟩
      · by_cases r2 : m.character.Equipped.Ring2.Name = c.Name
        · have hE : (toggleItem m k c).character.Equipped =
              { m.character.Equipped with Ring2 := Item.zero } := by
            simp [toggleItem, unequipItem, hf, s5, r1, r2]
          rw [hE]
          exact ⟨kH (Or.inr (by rw [s5]; decide)) _, kB (Or.inr (by rw [s5]; decide)) _,
            kHa (Or.inr (by rw [s5]; decide)) _, kF (Or.inr (by rw [s5]; decide)) _,
            kN (Or.inr (by rw [s5]; decide)) _, ringInv_unequip2 _ hR hc r1, hM, hO⟩
        · have hE : (toggleItem m k c).character.Equipped = m.character.Equipped := by
            simp [toggleItem, unequipItem, hf, s5, r1, r2]
          rw [hE]
          exact ⟨kH (Or.inr (by rw [s5]; decide)) _, kB (Or.inr (by rw [s5]; decide)) _,
            kHa (Or.inr (by rw [s5]; decide)) _, kF (Or.inr (by rw [s5]; decide)) _,
            kN (Or.inr (by rw [s5]; decide)) _, ringInv_set _ hR hc (Or.inr (Or.inr ⟨Ne.symm r1,
            Ne.symm r2⟩)), hM, hO⟩
    by_cases s6 : c.Slot = "neck"
    · by_cases hn : m.character.Equipped.Neck.Name = c.Name
      · have hE : (toggleItem m k c).character.Equipped =
            { m.character.Equipped with Neck := Item.zero } := by
          simp [toggleItem, unequipItem, hf, s6, hn]
        rw [hE]
        exact ⟨kH (Or.inr (by rw [s6]; decide)) _, kB (Or.inr (by rw [s6]; decide)) _,
          kHa (Or.inr (by rw [s6]; decide)) _, kF (Or.inr (by rw [s6]; decide)) _,
          fixedInv_zero _ _, kR (Or.inr (by rw [s6]; decide)) _, hM, hO⟩
      · have hE : (toggleItem m k c).character.Equipped = m.character.Equipped := by
          simp [toggleItem, unequipItem, hf, s6, hn]
        rw [hE]
        exact ⟨kH (Or.inr (by rw [s6]; decide)) _, kB (Or.inr (by rw [s6]; decide)) _,
          kHa (Or.inr (by rw [s6]; decide)) _, kF (Or.inr (by rw [s6]; decide)) _,
          fixedInv_set _ hN hc (Or.inr (Or.inr (Ne.symm hn))), kR (Or.inr (by rw [s6]; decide)) _,
          hM, hO⟩
    have hE : (toggleItem m k c).character.Equipped = m.character.Equipped := by
      simp [toggleItem, unequipItem, hf, s1, s2, s3, s4, s5, s6]
    rw [hE]
    have n_head : c.Slot ≠ "head" := s1
    have n_body : c.Slot ≠ "body" := s2
    have n_hands : c.Slot ≠ "hands" := s3
    have n_feet : c.Slot ≠ "feet" := s4
    have n_ring : c.Slot ≠ "ring" := s5
    have n_neck : c.Slot ≠ "neck" := s6
    exact ⟨kH (Or.inr n_head) _, kB (Or.inr n_body) _, kHa (Or.inr n_hands) _,
      kF (Or.inr n_feet) _, kN (Or.inr n_neck) _, kR (Or.inr n_ring) _, hM, hO⟩

/-- A hand field survives a write to entry `k` whose old value was not its
witness. -/
theorem handInv_set {ws : List Weapon} {field : Weapon} {hand : String} {k : Nat}
    {c : Weapon} (v : Weapon) (h : HandInv ws field hand) (hc : ws[k]? = some c)
    (hn : c.Equipped = false ∨ c.Hand ≠ hand ∨ c.Name ≠ field.Name) :
    HandInv (ws.set k v) field hand := by
  intro hne
  obtain ⟨i, hi⟩ := h hne
  refine ⟨i, hasAt_set_of_not v hi hc ?_⟩
  rintro ⟨h1, h2, h3⟩
  rcases hn with hn | hn | hn
  · rw [h2] at hn; cases hn
  · exact hn h3
  · exact hn h1

theorem handInv_new {ws : List Weapon} {hand : String} {k : Nat} {c : Weapon}
    (v field : Weapon) (hc : ws[k]? = some c) (hname : v.Name = field.Name)
    (hf : v.Equipped = true) (hh : v.Hand = hand) :
    HandInv (ws.set k v) field hand :=
  fun _ => ⟨k, hasAt_set_self hc ⟨hname, hf, hh⟩⟩

theorem handInv_zero (ws : List Weapon) (hand : String) : HandInv ws Weapon.zero hand :=
  fun h => absurd rfl h

theorem handInv_append {ws : List Weapon} {field : Weapon} {hand : String}
    (t : List Weapon) (h : HandInv ws field hand) : HandInv (ws ++ t) field hand :=
  fun hne => (h hne).imp fun _ hi => hasAt_append t hi

theorem toggleWeapon_fullInv (m : Model TI) (k : Nat) (c : Weapon)
    (hc : m.weapons[k]? = some c)
    (hinv : FullInv m.character.Equipped m.equipment m.weapons) :
    FullInv (toggleWeapon m k c).character.Equipped (toggleWeapon m k c).equipment
      (toggleWeapon m k c).weapons := by
  obtain ⟨hH, hB, hHa, hF, hN, hR, hM, hO⟩ := hinv
  have hI : (toggleWeapon m k c).equipment = m.equipment := rfl
  rw [hI]
  cases hf : c.Equipped
  · -- equip: the entry at k was unflagged, so every old witness survives
    by_cases c0 : c.Hand = "main" ∨ c.Hand = ""
    · by_cases c1 : m.character.Equipped.MainHand.Name = ""
      · have hE : (toggleWeapon m k c).character.Equipped =
            { m.character.Equipped with MainHand := { c with Equipped := true } } := by
          simp [toggleWeapon, equipWeapon, hf, c0, c1]
        have hL : (toggleWeapon m k c).weapons =
            m.weapons.set k { c with Equipped := true, Hand := "main" } := by
          simp [toggleWeapon, equipWeapon, hf, c0, c1]
        rw [hE, hL]
        exact ⟨hH, hB, hHa, hF, hN, hR, handInv_new _ _ hc rfl rfl rfl,
          handInv_set _ hO hc (Or.inl hf)⟩
      · by_cases c2 : m.character.Equipped.OffHand.Name = ""
        · have hE : (toggleWeapon m k c).character.Equipped =
              { m.character.Equipped with OffHand := { c with Equipped := true } } := by
            simp [toggleWeapon, equipWeapon, hf, c0, c1, c2]
          have hL : (toggleWeapon m k c).weapons =
              m.weapons.set k { c with Equipped := true, Hand := "off" } := by
            simp [toggleWeapon, equipWeapon, hf, c0, c1, c2]
          rw [hE, hL]
          exact ⟨hH, hB, hHa, hF, hN, hR, handInv_set _ hM hc (Or.inl hf),
            handInv_new _ _ hc rfl rfl rfl⟩
        · have hE : (toggleWeapon m k c).character.Equipped = m.character.Equipped := by
            simp [toggleWeapon, equipWeapon, hf, c0, c1, c2]
          have hL : (toggleWeapon m k c).weapons =
              m.weapons.set k { c with Equipped := false } := by
            simp [toggleWeapon, equipWeapon, hf, c0, c1, c2]
          rw [hE, hL]
          exact ⟨hH, hB, hHa, hF, hN, hR, handInv_set _ hM hc (Or.inl hf),
            handInv_set _ hO hc (Or.inl hf)⟩
    · have hE : (toggleWeapon m k c).character.Equipped = m.character.Equipped := by
        simp [toggleWeapon, equipWeapon, hf, c0]
      have hL : (toggleWeapon m k c).weapons =
          m.weapons.set k { c with Equipped := true } := by
        simp [toggleWeapon, equipWeapon, hf, c0]
      rw [hE, hL]
      exact ⟨hH, hB, hHa, hF, hN, hR, handInv_set _ hM hc (Or.inl hf),
        handInv_set _ hO hc (Or.inl hf)⟩
  · -- unequip: a hand is cleared exactly when the entry at k could be its witness
    have hL : (toggleWeapon m k c).weapons =
        m.weapons.set k { c with Equipped := false, Hand := "" } := by
      simp [toggleWeapon, unequipWeapon, hf]
    rw [hL]
    by_cases c1 : c.Hand = "main" ∧ m.character.Equipped.MainHand.Name = c.Name
    · have hE : (toggleWeapon m k c).character.Equipped =
          { m.character.Equipped with MainHand := Weapon.zero } := by
        simp [toggleWeapon, unequipWeapon, hf, c1]
      rw [hE]
      exact ⟨hH, hB, hHa, hF, hN, hR, handInv_zero _ _,
        handInv_set _ hO hc (Or.inr (Or.inl (by rw [c1.1]; decide)))⟩
    · by_cases c2 : c.Hand = "off" ∧ m.character.Equipped.OffHand.Name = c.Name
      · have hE : (toggleWeapon m k c).character.Equipped =
            { m.character.Equipped with OffHand := Weapon.zero } := by
          simp only [toggleWeapon, unequipWeapon, hf]
          simp [c1, c2]
        rw [hE]
        exact ⟨hH, hB, hHa, hF, hN, hR,
          handInv_set _ hM hc (Or.inr (Or.inl (by rw [c2.1]; decide))), handInv_zero _ _⟩
      · have hE : (toggleWeapon m k c).character.Equipped = m.character.Equipped := by
          simp only [toggleWeapon, unequipWeapon, hf]
          simp [c1, c2]
        rw [hE]
        refine ⟨hH, hB, hHa, hF, hN, hR, handInv_set _ hM hc ?_, handInv_set _ hO hc ?_⟩
        · by_cases hh : c.Hand = "main"
          · exact Or.inr (Or.inr (fun hN => c1 ⟨hh, hN.symm⟩))
          · exact Or.inr (Or.inl hh)
        · by_cases hh : c.Hand = "off"
          · exact Or.inr (Or.inr (fun hN => c2 ⟨hh, hN.symm⟩))
          · exact Or.inr (Or.inl hh)

theorem keyToggle_fullInv (m : Model TI)
    (hinv : FullInv m.character.Equipped m.equipment m.weapons) :
    FullInv (keyToggle m).character.Equipped (keyToggle m).equipment
      (keyToggle m).weapons := by
  unfold keyToggle
  split_ifs
  · split
    · next it hit => exact toggleItem_fullInv m _ it hit hinv
    · exact hinv
  · split
    · next w hw => exact toggleWeapon_fullInv m _ w hw hinv
    · exact hinv
  · exact hinv
  · exact hinv

theorem keyAdd_fullInv (x : Ext TI) (m : Model TI)
    (hinv : FullInv m.character.Equipped m.equipment m.weapons) :
    FullInv (keyAdd x m).character.Equipped (keyAdd x m).equipment
      (keyAdd x m).weapons := by
  obtain ⟨hH, hB, hHa, hF, hN, hR, hM, hO⟩ := hinv
  unfold keyAdd appendEquipment appendWeapons
  split_ifs <;>
    first
    | exact ⟨hH, hB, hHa, hF, hN, hR, hM, hO⟩
    | exact ⟨fixedInv_append _ hH, fixedInv_append _ hB, fixedInv_append _ hHa,
        fixedInv_append _ hF, fixedInv_append _ hN, ringInv_append _ hR, hM, hO⟩
    | exact ⟨hH, hB, hHa, hF, hN, hR, handInv_append _ hM, handInv_append _ hO⟩

theorem fullInv_step (x : Ext TI) (m m1 : Model TI) (msg : Msg)
    (h : Update x m msg = some m1)
    (hinv : FullInv m.character.Equipped m.equipment m.weapons) :
    FullInv m1.character.Equipped m1.equipment m1.weapons := by
  rcases Update_cases x m m1 msg h with h1 | h1 | h1 | h1 | h1
  · obtain ⟨he, hi, hw, _⟩ := keyAdvance_step m m1 h1
    rw [he, hi, hw]; exact hinv
  · obtain ⟨he, hi, hw, _⟩ := keyRetreat_step m m1 h1
    rw [he, hi, hw]; exact hinv
  · subst h1; exact keyAdd_fullInv x m hinv
  · subst h1; exact keyToggle_fullInv m hinv
  · obtain ⟨he, hi, hw, _⟩ := h1
    rw [he, hi, hw]; exact hinv

theorem fullInv_of_empty_table (e : Equipped) (items : List Item) (weapons : List Weapon)
    (he : e = Equipped.zero) : FullInv e items weapons := by
  subst he
  exact ⟨fixedInv_zero _ _, fixedInv_zero _ _, fixedInv_zero _ _, fixedInv_zero _ _,
    fixedInv_zero _ _,
    ⟨fun h => absurd rfl h, fun h => absurd rfl h, fun h => absurd rfl h⟩,
    handInv_zero _ _, handInv_zero _ _⟩

theorem tableFlagged_of_fullInv (e : Equipped) (items : List Item) (weapons : List Weapon)
    (h : FullInv e items weapons) : TableFlagged e items weapons := by
  obtain ⟨hH, hB, hHa, hF, hN, ⟨r1, r2, _⟩, hM, hO⟩ := h
  have item : ∀ (field : Item) (slot : String),
      (field.Name ≠ "" → ∃ i, HasAt items i (IsWorn field.Name slot)) →
      ItemBacked items field slot := by
    intro field slot hfi hne
    obtain ⟨i, hi⟩ := hfi hne
    obtain ⟨a, ha, hn, hf, hs⟩ := hasAt_mem hi
    exact ⟨a, ha, hn, hf, hs⟩
  have weapon : ∀ (field : Weapon) (hand : String), HandInv weapons field hand →
      WeaponBacked weapons field hand := by
    intro field hand hfi hne
    obtain ⟨i, hi⟩ := hfi hne
    obtain ⟨a, ha, hn, hf, hs⟩ := hasAt_mem hi
    exact ⟨a, ha, hn, hf, hs⟩
  exact ⟨item _ _ hH, item _ _ hB, item _ _ hHa, item _ _ hF, item _ _ hN, item _ _ r1,
    item _ _ r2, weapon _ _ hM, weapon _ _ hO⟩

theorem reachableFrom_fullInv (m0 m : Model TI) (h : ReachableFrom m0 m)
    (hinv : FullInv m0.character.Equipped m0.equipment m0.weapons) :
    FullInv m.character.Equipped m.equipment m.weapons := by
  induction h with
  | start => exact hinv
  | step x msg _ hstep ih => exact fullInv_step x _ _ msg hstep ih

theorem reachableFrom_of_run (x : Ext TI) (msgs : List Msg) (m0 m m1 : Model TI)
    (hm : ReachableFrom m0 m) (h : run x m msgs = some m1) : ReachableFrom m0 m1 := by
  induction msgs generalizing m with
  | nil => simp [run] at h; subst h; exact hm
  | cons msg rest ih =>
    simp only [run] at h
    cases hu : Update x m msg with
    | none => rw [hu] at h; simp at h
    | some m2 =>
      rw [hu] at h
      exact ih m2 (ReachableFrom.step x msg hm hu) h

/-- C15: in every state reachable by messages (advance, retreat, mode, add,
commit, sub-view, toggle and all others) from any model whose table is entirely
empty, every field of the table with a non-empty name has an entry in the
working list of its kind with the same name, its flag set, and the matching slot
category (head, body, hands, feet, neck, ring for Ring1 and Ring2) or, for
MainHand and OffHand, the hand "main" respectively "off".  The entries of the
starting lists may have any names, categories, hands and flags. -/
theorem table_stays_backed_by_flagged_entries (m0 m : Model TI)
    (he : m0.character.Equipped = Equipped.zero) (hr : ReachableFrom m0 m) :
    TableFlagged m.character.Equipped m.equipment m.weapons :=
  tableFlagged_of_fullInv _ _ _
    (reachableFrom_fullInv m0 m hr (fullInv_of_empty_table _ _ _ he))

theorem table_stays_backed_by_flagged_entries_witness :
    ∃ m : Model Unit,
      run demoExt twinRingModel (keys [" ", "right", " ", "left", " "]) = some m ∧
      m.character.Equipped.Ring1 = Item.zero ∧
      m.character.Equipped.Ring2 = mkItem "Band" "ring" true ∧
      m.equipment = [mkItem "Band" "ring" false, mkItem "Band" "ring" true] ∧
      TableFlagged m.character.Equipped m.equipment m.weapons :=
  ⟨_, rfl, rfl, rfl, rfl,
    table_stays_backed_by_flagged_entries twinRingModel _ rfl
      (reachableFrom_of_run demoExt (keys [" ", "right", " ", "left", " "]) _ _ _
        ReachableFrom.start rfl)⟩

end CharSheet
